import Mathlib

/-!
# Routing core of xray-core: rule evaluation and hot reload

A shallow embedding of `app/router/router.go`.  The router state is an explicit
record, the mutating methods return the new state together with their error
value, and the calls a pick makes to the outside (attaching the DNS client,
applying a rule) are recorded in a trace so that they can be counted.

Types and functions the file uses but does not define (the routing context, the
condition matchers, `BuildCondition`, the balancers) are parameters, bundled in
`Deps` and `BalDeps`; `Rule.GetTag` is a parameter of `PickRoute`.

The development also covers `parseWireGuardKey` of `infra/conf/wireguard.go`, on
strings taken as byte sequences with the two base64 decoders as parameters, and
the port range matcher exercised by `common/net/port_test.go`.
-/

set_option autoImplicit false

namespace XrayRouter

/-- The enum `Config_DomainStrategy` of the router configuration. -/
inductive Config_DomainStrategy where
  | AsIs
  | UseIp
  | IpIfNonMatch
  | IpOnDemand
deriving DecidableEq, Repr

/-- Error values returned by the router.  `buildCondition` carries an error
coming out of `BuildCondition`, `pickOutbound` one coming out of a balancer. -/
inductive Err where
  | duplicateRuleTag (tag : String)
  | balancerNotFound (btag : String)
  | emptyTagName
  | ErrNoClue
  | buildCondition (msg : String)
  | pickOutbound (msg : String)
deriving DecidableEq, Repr

/-- The protobuf oneof `RoutingRule.TargetTag`. -/
inductive TargetTag where
  | unset
  | Tag (tag : String)
  | BalancingTag (btag : String)
deriving DecidableEq, Repr

/-- The configuration message `RoutingRule`: the rule tag, the target and the
matcher fields (`CondCfg`) that `BuildCondition` consumes. -/
structure RoutingRule (CondCfg : Type) where
  RuleTag : String
  TargetTag : TargetTag
  fields : CondCfg
deriving DecidableEq, Repr

/-- Getter `RoutingRule.GetTag`: the outbound tag, or the empty string when the
oneof holds something else. -/
def RoutingRule.GetTag {CondCfg : Type} (rule : RoutingRule CondCfg) : String :=
  match rule.TargetTag with
  | .Tag t => t
  | _ => ""

/-- Getter `RoutingRule.GetBalancingTag`. -/
def RoutingRule.GetBalancingTag {CondCfg : Type} (rule : RoutingRule CondCfg) : String :=
  match rule.TargetTag with
  | .BalancingTag t => t
  | _ => ""

/-- Getter `RoutingRule.GetRuleTag`. -/
def RoutingRule.GetRuleTag {CondCfg : Type} (rule : RoutingRule CondCfg) : String :=
  rule.RuleTag

/-- The configuration message `Config`, restricted to the fields the router reads;
`BalCfg` stands for the balancing rule messages. -/
structure Config (CondCfg BalCfg : Type) where
  DomainStrategy : Config_DomainStrategy
  Rule : List (RoutingRule CondCfg)
  BalancingRule : List BalCfg
deriving DecidableEq, Repr

/-- An active rule, `Rule` in the source: a condition, a static outbound tag, the
rule tag and an optional balancer (`none` is the nil pointer). -/
structure Rule (Cond Bal : Type) where
  Condition : Cond
  Tag : String
  RuleTag : String
  Balancer : Option Bal
deriving DecidableEq, Repr

/-- The router state.  The balancer map is an association list read with
`List.lookup`; the mutex is not part of the sequential state. -/
structure Router (Cond Bal Dns CondCfg BalCfg : Type) where
  domainStrategy : Config_DomainStrategy
  rules : List (Rule Cond Bal)
  balancers : List (String × Bal)
  dns : Dns
  config : Option (Config CondCfg BalCfg)
deriving DecidableEq, Repr

/-- What the router calls outside `router.go`: the two getters of
`routing.Context` it reads, `routing_dns.ContextWithDNSClient`,
`Condition.Apply` and `RoutingRule.BuildCondition`.  `Apply` is a function of
the context it is given: addresses a context resolves and caches on demand are
part of what that context is. -/
structure Deps (Ctx Cond Dns CondCfg : Type) where
  GetSkipDNSResolve : Ctx → Bool
  GetTargetDomain : Ctx → String
  ContextWithDNSClient : Ctx → Dns → Ctx
  Apply : Cond → Ctx → Bool
  BuildCondition : RoutingRule CondCfg → Except String Cond

/-- A call made while picking a route. -/
inductive Event (Ctx Cond Bal : Type) where
  | attachDNS (ctx : Ctx)
  | apply (rule : Rule Cond Bal) (ctx : Ctx)
deriving DecidableEq, Repr

/-- The three values `pickRouteInternal` returns, and the calls it made. -/
structure PickResult (Ctx Cond Bal : Type) where
  rule : Option (Rule Cond Bal)
  ctx : Ctx
  err : Option Err
  trace : List (Event Ctx Cond Bal)
deriving DecidableEq, Repr

section Defs

variable {Ctx Cond Bal Dns CondCfg BalCfg : Type}

/-- `Rule.Apply`: delegates to the condition. -/
def Rule.Apply (d : Deps Ctx Cond Dns CondCfg) (rule : Rule Cond Bal) (ctx : Ctx) : Bool :=
  d.Apply rule.Condition ctx

/-- The loop `for _, rule := range r.rules { if rule.Apply(ctx) { return rule ... } }`:
the rule it returns, if any, and the `Apply` calls it made. -/
def applyLoop (d : Deps Ctx Cond Dns CondCfg) (ctx : Ctx) :
    List (Rule Cond Bal) → Option (Rule Cond Bal) × List (Event Ctx Cond Bal)
  | [] => (none, [])
  | rule :: rest =>
    if rule.Apply d ctx then (some rule, [Event.apply rule ctx])
    else
      let res := applyLoop d ctx rest
      (res.1, Event.apply rule ctx :: res.2)

/-- `Router.pickRouteInternal`.  `len(s) == 0` is rendered `s.length == 0`: both
lengths are zero exactly for the empty string. -/
def pickRouteInternal (d : Deps Ctx Cond Dns CondCfg)
    (r : Router Cond Bal Dns CondCfg BalCfg) (ctx : Ctx) : PickResult Ctx Cond Bal :=
  let skipDNSResolve := d.GetSkipDNSResolve ctx
  let attach0 : Bool := decide (r.domainStrategy = .IpOnDemand) && !skipDNSResolve
  let ctx1 := if attach0 then d.ContextWithDNSClient ctx r.dns else ctx
  let t0 : List (Event Ctx Cond Bal) := if attach0 then [Event.attachDNS ctx] else []
  match applyLoop d ctx1 r.rules with
  | (some rule, t1) => ⟨some rule, ctx1, none, t0 ++ t1⟩
  | (none, t1) =>
    if decide (r.domainStrategy ≠ .IpIfNonMatch) || (d.GetTargetDomain ctx1).length == 0
        || skipDNSResolve then
      ⟨none, ctx1, some Err.ErrNoClue, t0 ++ t1⟩
    else
      let ctx2 := d.ContextWithDNSClient ctx1 r.dns
      match applyLoop d ctx2 r.rules with
      | (some rule, t2) => ⟨some rule, ctx2, none, t0 ++ t1 ++ Event.attachDNS ctx1 :: t2⟩
      | (none, t2) => ⟨none, ctx2, some Err.ErrNoClue, t0 ++ t1 ++ Event.attachDNS ctx1 :: t2⟩

/-- The loop of `RuleExists` over the active rules. -/
def ruleExistsLoop (tag : String) : List (Rule Cond Bal) → Bool
  | [] => false
  | rule :: rest => if rule.RuleTag = tag then true else ruleExistsLoop tag rest

/-- `Router.RuleExists`. -/
def RuleExists (r : Router Cond Bal Dns CondCfg BalCfg) (tag : String) : Bool :=
  if tag ≠ "" then ruleExistsLoop tag r.rules else false

/-- The loop of `ReloadRules` over `config.Rule`: each accepted rule is appended to
`r.rules` before the next one is examined; the first failure returns at once,
with the state reached so far.  `len(btag) > 0` is rendered `btag.length > 0`. -/
def reloadLoop (d : Deps Ctx Cond Dns CondCfg) :
    Router Cond Bal Dns CondCfg BalCfg → List (RoutingRule CondCfg) →
      Router Cond Bal Dns CondCfg BalCfg × Option Err
  | r, [] => (r, none)
  | r, rule :: rest =>
    if RuleExists r rule.RuleTag then (r, some (Err.duplicateRuleTag rule.RuleTag))
    else
      match d.BuildCondition rule with
      | .error e => (r, some (Err.buildCondition e))
      | .ok cond =>
        let rr : Rule Cond Bal :=
          { Condition := cond, Tag := rule.GetTag, RuleTag := rule.GetRuleTag, Balancer := none }
        let btag := rule.GetBalancingTag
        if btag.length > 0 then
          match r.balancers.lookup btag with
          | none => (r, some (Err.balancerNotFound btag))
          | some brule =>
            reloadLoop d { r with rules := r.rules ++ [{ rr with Balancer := some brule }] } rest
        else
          reloadLoop d { r with rules := r.rules ++ [rr] } rest

/-- `Router.ReloadRules`: the loop, then `r.config = config` when it ran through. -/
def ReloadRules (d : Deps Ctx Cond Dns CondCfg) (r : Router Cond Bal Dns CondCfg BalCfg)
    (config : Config CondCfg BalCfg) : Router Cond Bal Dns CondCfg BalCfg × Option Err :=
  match reloadLoop d r config.Rule with
  | (r', none) => ({ r' with config := some config }, none)
  | (r', some e) => (r', some e)

/-- The loop of `RemoveRule`: `newRules` accumulates the rules whose tag differs. -/
def removeLoop (tag : String) :
    List (Rule Cond Bal) → List (Rule Cond Bal) → List (Rule Cond Bal)
  | newRules, [] => newRules
  | newRules, rule :: rest =>
    if rule.RuleTag ≠ tag then removeLoop tag (newRules ++ [rule]) rest
    else removeLoop tag newRules rest

/-- `Router.RemoveRule`. -/
def RemoveRule (r : Router Cond Bal Dns CondCfg BalCfg) (tag : String) :
    Router Cond Bal Dns CondCfg BalCfg × Option Err :=
  if tag ≠ "" then ({ r with rules := removeLoop tag [] r.rules }, none)
  else (r, some Err.emptyTagName)

/-- Number of `Rule.Apply` calls recorded in a trace. -/
def applyCount : List (Event Ctx Cond Bal) → Nat
  | [] => 0
  | Event.apply _ _ :: t => applyCount t + 1
  | Event.attachDNS _ :: t => applyCount t

/-- Number of `ContextWithDNSClient` calls recorded in a trace. -/
def attachCount : List (Event Ctx Cond Bal) → Nat
  | [] => 0
  | Event.apply _ _ :: t => attachCount t
  | Event.attachDNS _ :: t => attachCount t + 1

/-- The `Apply` calls of a scan of `rules`, in list order, all on the context `ctx`. -/
def scan (ctx : Ctx) (rules : List (Rule Cond Bal)) : List (Event Ctx Cond Bal) :=
  rules.map (fun q => Event.apply q ctx)

/-- The active rule built from one entry of `config.Rule`: the condition from
`BuildCondition`, the outbound tag and the rule tag copied, the balancer taken
from the table when the entry names one.  `none` when the condition does not
build or the balancing tag is not in the table. -/
def ruleOf (d : Deps Ctx Cond Dns CondCfg) (balancers : List (String × Bal))
    (rule : RoutingRule CondCfg) : Option (Rule Cond Bal) :=
  match d.BuildCondition rule with
  | .error _ => none
  | .ok cond =>
    if rule.GetBalancingTag.length > 0 then
      (balancers.lookup rule.GetBalancingTag).map
        (fun b => { Condition := cond, Tag := rule.GetTag, RuleTag := rule.RuleTag, Balancer := some b })
    else some { Condition := cond, Tag := rule.GetTag, RuleTag := rule.RuleTag, Balancer := none }

/-- The context of the first scan of a pick: the caller's, with the DNS client
attached under IpOnDemand unless the skip flag is set. -/
def firstCtx (d : Deps Ctx Cond Dns CondCfg) (r : Router Cond Bal Dns CondCfg BalCfg)
    (ctx : Ctx) : Ctx :=
  if decide (r.domainStrategy = .IpOnDemand) && !d.GetSkipDNSResolve ctx
  then d.ContextWithDNSClient ctx r.dns else ctx

/-- Whether a pick whose first scan matched nothing goes on to a second scan. -/
def retries (d : Deps Ctx Cond Dns CondCfg) (r : Router Cond Bal Dns CondCfg BalCfg)
    (ctx : Ctx) : Bool :=
  !(decide (r.domainStrategy ≠ .IpIfNonMatch) || (d.GetTargetDomain (firstCtx d r ctx)).length == 0
    || d.GetSkipDNSResolve ctx)

end Defs

/-! ## A concrete instance of the outside interfaces, for evaluating the model -/

namespace Sample

/-- A routing context: target domain, skip-DNS flag and the IPs visible to matchers. -/
structure Ctx where
  domain : String
  skip : Bool
  ips : List String
deriving DecidableEq, Repr

/-- Two matchers: on the target domain, and on a visible IP. -/
inductive Cond where
  | domain (d : String)
  | ip (a : String)
  | empty
deriving DecidableEq, Repr

/-- A DNS client is a table from domains to addresses. -/
abbrev Dns := List (String × String)

/-- Attaching the DNS client makes the address of the target domain visible. -/
def attach (c : Ctx) (dns : Dns) : Ctx :=
  match dns.lookup c.domain with
  | some a => { c with ips := c.ips ++ [a] }
  | none => c

/-- The matchers evaluated on a context. -/
def applyCond : Cond → Ctx → Bool
  | .domain d, c => c.domain = d
  | .ip a, c => a ∈ c.ips
  | .empty, _ => false

/-- Building a condition fails on a rule with no matcher field. -/
def build (rule : RoutingRule Cond) : Except String Cond :=
  match rule.fields with
  | .empty => .error "this rule has no effective fields"
  | c => .ok c

/-- The sample instance of `Deps`. -/
def deps : Deps Ctx Cond Dns Cond where
  GetSkipDNSResolve := fun c => c.skip
  GetTargetDomain := fun c => c.domain
  ContextWithDNSClient := attach
  Apply := applyCond
  BuildCondition := build

/-- Active rule matching the domain `example.com`, sent to `direct`. -/
def rDomain : Rule Cond String := ⟨.domain "example.com", "direct", "r1", none⟩

/-- Active rule matching the address `10.1.2.3`, sent to `block`. -/
def rIp : Rule Cond String := ⟨.ip "10.1.2.3", "block", "r2", none⟩

/-- Active rule with an empty rule tag. -/
def rNoTag : Rule Cond String := ⟨.domain "example.org", "direct", "", none⟩

/-- A DNS table resolving `example.com`. -/
def dns : Dns := [("example.com", "10.1.2.3")]

/-- A router over the given rules with the given strategy and one balancer `b1`. -/
def router (s : Config_DomainStrategy) (rules : List (Rule Cond String)) :
    Router Cond String Dns Cond Unit :=
  ⟨s, rules, [("b1", "balancer-1")], dns, none⟩

/-- A context for `example.com` without IPs. -/
def ctx : Ctx := ⟨"example.com", false, []⟩

/-- The same context with the skip-DNS flag set. -/
def ctxSkip : Ctx := ⟨"example.com", true, []⟩

/-- A configuration carrying the given rules. -/
def cfg (rules : List (RoutingRule Cond)) : Config Cond Unit :=
  ⟨.AsIs, rules, []⟩

end Sample

/-! ## Initialisation, the public pick and the states a reload goes through -/

/-- What `Init` calls on the balancing rules of the configuration:
`BalancingRule.Build`, the field `Tag`, and `Balancer.InjectContext`, which
returns the balancer it was called on. -/
structure BalDeps (Bal BalCfg : Type) where
  Build : BalCfg → Except Err Bal
  Tag : BalCfg → String
  InjectContext : Bal → Bal

/-- The struct `Route`: the embedded routing context and the two tag fields. -/
structure Route (Ctx : Type) where
  Context : Ctx
  outboundGroupTags : List String
  outboundTag : String
deriving DecidableEq, Repr

/-- `Route.GetOutboundGroupTags`. -/
def Route.GetOutboundGroupTags {Ctx : Type} (r : Route Ctx) : List String :=
  r.outboundGroupTags

/-- `Route.GetOutboundTag`. -/
def Route.GetOutboundTag {Ctx : Type} (r : Route Ctx) : String :=
  r.outboundTag

section Defs2

variable {Ctx Cond Bal Dns CondCfg BalCfg : Type}

/-- The assignment `m[tag] = balancer` on the balancer map. -/
def mapSet (m : List (String × Bal)) (tag : String) (balancer : Bal) : List (String × Bal) :=
  (tag, balancer) :: m.filter (fun kv => kv.1 != tag)

/-- The first loop of `Init`, over `config.BalancingRule`: the map built so far and
the error of the first balancing rule that does not build. -/
def balancerLoop (bd : BalDeps Bal BalCfg) :
    List (String × Bal) → List BalCfg → List (String × Bal) × Option Err
  | m, [] => (m, none)
  | m, rule :: rest =>
    match bd.Build rule with
    | .error e => (m, some e)
    | .ok balancer => balancerLoop bd (mapSet m (bd.Tag rule) (bd.InjectContext balancer)) rest

/-- The second loop of `Init`, over `config.Rule`: the body of the loop of
`ReloadRules` without the `RuleExists` test. -/
def initRuleLoop (d : Deps Ctx Cond Dns CondCfg) :
    Router Cond Bal Dns CondCfg BalCfg → List (RoutingRule CondCfg) →
      Router Cond Bal Dns CondCfg BalCfg × Option Err
  | r, [] => (r, none)
  | r, rule :: rest =>
    match d.BuildCondition rule with
    | .error e => (r, some (Err.buildCondition e))
    | .ok cond =>
      let rr : Rule Cond Bal :=
        { Condition := cond, Tag := rule.GetTag, RuleTag := rule.RuleTag, Balancer := none }
      let btag := rule.GetBalancingTag
      if btag.length > 0 then
        match r.balancers.lookup btag with
        | none => (r, some (Err.balancerNotFound btag))
        | some brule =>
          initRuleLoop d { r with rules := r.rules ++ [{ rr with Balancer := some brule }] } rest
      else
        initRuleLoop d { r with rules := r.rules ++ [rr] } rest

/-- `Router.Init` on the router `r`: strategy and DNS client are stored first, then
the balancer map is built, then the rules, then the configuration is stored.
A failure returns the state reached. -/
def Init (d : Deps Ctx Cond Dns CondCfg) (bd : BalDeps Bal BalCfg)
    (r : Router Cond Bal Dns CondCfg BalCfg) (config : Config CondCfg BalCfg) (dns : Dns) :
    Router Cond Bal Dns CondCfg BalCfg × Option Err :=
  let r1 : Router Cond Bal Dns CondCfg BalCfg :=
    { r with domainStrategy := config.DomainStrategy, dns := dns }
  match balancerLoop bd [] config.BalancingRule with
  | (m, some e) => ({ r1 with balancers := m }, some e)
  | (m, none) =>
    match initRuleLoop d { r1 with balancers := m, rules := [] } config.Rule with
    | (r2, some e) => (r2, some e)
    | (r2, none) => ({ r2 with config := some config }, none)

/-- `Router.PickRoute`, with `Rule.GetTag` as the parameter `getTag`.  The outer
`none` stands for the nil dereference of `rule.GetTag()` on a nil rule. -/
def PickRoute (d : Deps Ctx Cond Dns CondCfg) (getTag : Rule Cond Bal → Except Err String)
    (r : Router Cond Bal Dns CondCfg BalCfg) (ctx : Ctx) : Option (Except Err (Route Ctx)) :=
  let res := pickRouteInternal d r ctx
  match res.err with
  | some err => some (.error err)
  | none =>
    match res.rule with
    | none => none
    | some rule =>
      match getTag rule with
      | .error err => some (.error err)
      | .ok tag => some (.ok { Context := res.ctx, outboundGroupTags := [], outboundTag := tag })

/-- The values the field `r.rules` holds while the loop of `ReloadRules` runs: the
value on entry, then the value after each `r.rules = append(r.rules, rr)`.
`pickRouteInternal` reads the field without taking `r.mu`. -/
def reloadSnapshots (d : Deps Ctx Cond Dns CondCfg) :
    Router Cond Bal Dns CondCfg BalCfg → List (RoutingRule CondCfg) → List (List (Rule Cond Bal))
  | r, [] => [r.rules]
  | r, rule :: rest =>
    if RuleExists r rule.RuleTag then [r.rules]
    else
      match d.BuildCondition rule with
      | .error _ => [r.rules]
      | .ok cond =>
        let rr : Rule Cond Bal :=
          { Condition := cond, Tag := rule.GetTag, RuleTag := rule.GetRuleTag, Balancer := none }
        let btag := rule.GetBalancingTag
        if btag.length > 0 then
          match r.balancers.lookup btag with
          | none => [r.rules]
          | some brule =>
            r.rules ::
              reloadSnapshots d { r with rules := r.rules ++ [{ rr with Balancer := some brule }] } rest
        else
          r.rules :: reloadSnapshots d { r with rules := r.rules ++ [rr] } rest

/-- No two rules of the list share a non-empty rule tag. -/
abbrev UniqueTags (rules : List (Rule Cond Bal)) : Prop :=
  rules.Pairwise (fun a b => a.RuleTag = b.RuleTag → a.RuleTag = "")

/-- The rule tags of a configuration: no two entries share a non-empty one. -/
abbrev UniqueCfgTags (rules : List (RoutingRule CondCfg)) : Prop :=
  rules.Pairwise (fun a b => a.RuleTag = b.RuleTag → a.RuleTag = "")

end Defs2

/-- A mutating call on a running router. -/
inductive Op (CondCfg BalCfg : Type) where
  | reload (config : Config CondCfg BalCfg)
  | remove (tag : String)
deriving DecidableEq, Repr

section Defs3

variable {Ctx Cond Bal Dns CondCfg BalCfg : Type}

/-- The state after one mutating call, whether it succeeded or failed. -/
def applyOp (d : Deps Ctx Cond Dns CondCfg) (r : Router Cond Bal Dns CondCfg BalCfg) :
    Op CondCfg BalCfg → Router Cond Bal Dns CondCfg BalCfg
  | .reload config => (ReloadRules d r config).1
  | .remove tag => (RemoveRule r tag).1

/-- The state after a sequence of mutating calls. -/
def run (d : Deps Ctx Cond Dns CondCfg) (r : Router Cond Bal Dns CondCfg BalCfg)
    (ops : List (Op CondCfg BalCfg)) : Router Cond Bal Dns CondCfg BalCfg :=
  ops.foldl (applyOp d) r

end Defs3

namespace Sample

/-- Balancing rules are given by their tag; the balancer built is named after it. -/
def bdeps : BalDeps String String where
  Build := fun tag => if tag = "" then .error (Err.pickOutbound "empty balancer tag") else .ok tag
  Tag := fun tag => tag
  InjectContext := fun b => b

/-- Tag resolution: the static tag without a balancer, the outbound `out-1` from the
balancer `balancer-1`, and an exhausted balancer otherwise. -/
def getTag (rule : Rule Cond String) : Except Err String :=
  match rule.Balancer with
  | none => .ok rule.Tag
  | some b => if b = "balancer-1" then .ok "out-1" else .error (Err.pickOutbound "exhausted")

/-- A router before `Init`. -/
def router0 : Router Cond String Dns Cond String :=
  ⟨.AsIs, [], [], [], none⟩

/-- A running router whose configuration type carries balancing rules, with the one
balancer `b1`. -/
def routerB (s : Config_DomainStrategy) (rules : List (Rule Cond String)) :
    Router Cond String Dns Cond String :=
  ⟨s, rules, [("b1", "balancer-1")], dns, none⟩

/-- A configuration with strategy, rules and balancing rules. -/
def cfgB (s : Config_DomainStrategy) (rules : List (RoutingRule Cond)) (bals : List String) :
    Config Cond String :=
  ⟨s, rules, bals⟩

end Sample

end XrayRouter

/-! ## Port ranges (`common/net`) -/

namespace XrayNet

/-- Modelled from the spec: the message `PortRange` of `common/net`, whose source is
not among the files shown; the test builds it from its two bounds `From` and
`To`. -/
structure PortRange where
  From : Nat
  To : Nat
deriving DecidableEq, Repr

/-- Modelled from the spec: `PortRange.Contains`, the port-range matcher, whose
source is not among the files shown: a port is contained when it lies between
the two bounds, both included. -/
def PortRange.Contains (p : PortRange) (port : Nat) : Bool :=
  decide (p.From ≤ port) && decide (port ≤ p.To)

end XrayNet

/-! ## WireGuard keys (`infra/conf/wireguard.go`) -/

namespace XrayConf

/-- A Go string, as the sequence of its bytes. -/
abbrev Bytes := List Nat

/-- The two decoders of `encoding/base64` that `parseWireGuardKey` calls,
`RawStdEncoding.DecodeString` and `RawURLEncoding.DecodeString`; `none` is a
decoding error. -/
structure Base64 where
  RawStdDecode : Bytes → Option Bytes
  RawURLDecode : Bytes → Option Bytes

/-- The value of a hexadecimal digit, in either case, as `encoding/hex` reads it. -/
def fromHexChar (c : Nat) : Option Nat :=
  if 48 ≤ c ∧ c ≤ 57 then some (c - 48)
  else if 97 ≤ c ∧ c ≤ 102 then some (c - 97 + 10)
  else if 65 ≤ c ∧ c ≤ 70 then some (c - 65 + 10)
  else none

/-- `hex.DecodeString`: pairs of digits to bytes; `none` on a byte that is not a
digit and on an odd length. -/
def hexDecodeString : Bytes → Option Bytes
  | [] => some []
  | [_] => none
  | p :: q :: rest =>
    match fromHexChar p, fromHexChar q with
    | some a, some b =>
      match hexDecodeString rest with
      | some out => some ((a * 16 + b) :: out)
      | none => none
    | _, _ => none

/-- The entry of `0123456789abcdef` at index `n`. -/
def hexDigit (n : Nat) : Nat :=
  if n < 10 then 48 + n else 87 + n

/-- `hex.EncodeToString`: two lowercase digits per byte. -/
def hexEncodeToString : Bytes → Bytes
  | [] => []
  | v :: rest => hexDigit (v / 16 % 16) :: hexDigit (v % 16) :: hexEncodeToString rest

/-- `strings.TrimSuffix(str, "=")`: the last byte dropped when it is `=`. -/
def trimSuffixEq (str : Bytes) : Bytes :=
  if str.getLast? = some 61 then str.dropLast else str

/-- `strings.ContainsRune(str, r)` for an ASCII rune `r`. -/
def containsRune (str : Bytes) (r : Nat) : Bool :=
  str.elem r

/-- `parseWireGuardKey`; `none` is the error `failed to deserialize key`. -/
def parseWireGuardKey (b64 : Base64) (str : Bytes) : Option Bytes :=
  if str.length % 2 = 0 ∧ (hexDecodeString str).isSome then some str
  else
    let str1 := trimSuffixEq str
    let dat :=
      if containsRune str1 43 || containsRune str1 47 then b64.RawStdDecode str1
      else b64.RawURLDecode str1
    match dat with
    | some dat => some (hexEncodeToString dat)
    | none => none

/-- Whether a string is a hexadecimal encoding: even length, digits only. -/
def isHex (s : Bytes) : Bool :=
  s.length % 2 == 0 && s.all (fun c => (fromHexChar c).isSome)

/-- The value of a base64 digit in the standard alphabet (`url = false`) or the
URL-safe one (`url = true`). -/
def fromBase64Char (url : Bool) (c : Nat) : Option Nat :=
  if 65 ≤ c ∧ c ≤ 90 then some (c - 65)
  else if 97 ≤ c ∧ c ≤ 122 then some (c - 97 + 26)
  else if 48 ≤ c ∧ c ≤ 57 then some (c - 48 + 52)
  else if c = (if url then 45 else 43) then some 62
  else if c = (if url then 95 else 47) then some 63
  else none

/-- Unpadded decoding of digits, four at a time to three bytes; a last group of two
or three digits gives one or two bytes, a last group of one digit is an error. -/
def decodeQuanta (url : Bool) : Bytes → Option Bytes
  | [] => some []
  | [_] => none
  | [a, b] =>
    match fromBase64Char url a, fromBase64Char url b with
    | some x, some y => some [(x * 4 + y / 16) % 256]
    | _, _ => none
  | [a, b, c] =>
    match fromBase64Char url a, fromBase64Char url b, fromBase64Char url c with
    | some x, some y, some z => some [(x * 4 + y / 16) % 256, (y * 16 + z / 4) % 256]
    | _, _, _ => none
  | a :: b :: c :: e :: rest =>
    match fromBase64Char url a, fromBase64Char url b, fromBase64Char url c,
      fromBase64Char url e with
    | some x, some y, some z, some w =>
      match decodeQuanta url rest with
      | some out => some ((x * 4 + y / 16) % 256 :: (y * 16 + z / 4) % 256 :: (z * 64 + w) % 256 :: out)
      | none => none
    | _, _, _, _ => none

/-- The decoders of Go's `encoding/base64` for the unpadded encodings: line feeds
and carriage returns are skipped, then the digits are decoded. -/
def goBase64 : Base64 where
  RawStdDecode := fun s => decodeQuanta false (s.filter (fun c => c != 10 && c != 13))
  RawURLDecode := fun s => decodeQuanta true (s.filter (fun c => c != 10 && c != 13))

/-- The bytes of a string of ASCII characters. -/
def ascii (s : String) : Bytes :=
  s.toList.map Char.toNat

end XrayConf

namespace XrayRouter

/-! ## Rule evaluation -/

section Pick

variable {Ctx Cond Bal Dns CondCfg BalCfg : Type}

theorem applyCount_append (s t : List (Event Ctx Cond Bal)) :
    applyCount (s ++ t) = applyCount s + applyCount t := by
  induction s with
  | nil => simp [applyCount]
  | cons e s ih => cases e <;> simp [applyCount, ih, Nat.add_right_comm]

theorem attachCount_append (s t : List (Event Ctx Cond Bal)) :
    attachCount (s ++ t) = attachCount s + attachCount t := by
  induction s with
  | nil => simp [attachCount]
  | cons e s ih => cases e <;> simp [attachCount, ih, Nat.add_right_comm]

theorem applyCount_scan (ctx : Ctx) (rules : List (Rule Cond Bal)) :
    applyCount (scan ctx rules) = rules.length := by
  induction rules with
  | nil => rfl
  | cons q rules ih => simpa [scan, applyCount] using ih

theorem attachCount_scan (ctx : Ctx) (rules : List (Rule Cond Bal)) :
    attachCount (scan ctx rules) = 0 := by
  induction rules with
  | nil => rfl
  | cons q rules ih => simpa [scan, attachCount] using ih

/-- The rule returned by the loop is the first one, in list order, that applies. -/
theorem applyLoop_fst (d : Deps Ctx Cond Dns CondCfg) (ctx : Ctx) (rules : List (Rule Cond Bal)) :
    (applyLoop d ctx rules).1 = rules.find? (fun q => q.Apply d ctx) := by
  induction rules with
  | nil => rfl
  | cons q rules ih =>
    by_cases h : q.Apply d ctx = true
    · simp [applyLoop, h]
    · simp [applyLoop, h, ih]

/-- The loop applies the rules in list order and stops at the one it returns. -/
theorem applyLoop_snd (d : Deps Ctx Cond Dns CondCfg) (ctx : Ctx) (rules : List (Rule Cond Bal)) :
    ∃ k, k ≤ rules.length ∧ (applyLoop d ctx rules).2 = scan ctx (rules.take k) ∧
      ((applyLoop d ctx rules).1 = none → k = rules.length) := by
  induction rules with
  | nil => exact ⟨0, by simp, rfl, by simp⟩
  | cons q rules ih =>
    by_cases h : q.Apply d ctx = true
    · exact ⟨1, by simp, by simp [applyLoop, h, scan], by simp [applyLoop, h]⟩
    · obtain ⟨k, hk, ht, hn⟩ := ih
      refine ⟨k + 1, by simpa using hk, ?_, ?_⟩
      · simp [applyLoop, h, ht, scan]
      · intro h1
        simp only [applyLoop, h] at h1
        simpa using hn h1

/-- A loop that returns a rule: its index, and what was applied before it. -/
theorem applyLoop_some (d : Deps Ctx Cond Dns CondCfg) (ctx : Ctx) (rules : List (Rule Cond Bal))
    (R : Rule Cond Bal) (h : (applyLoop d ctx rules).1 = some R) :
    ∃ i, rules[i]? = some R ∧ R.Apply d ctx = true ∧
      (∀ j, j < i → ∀ Q, rules[j]? = some Q → Q.Apply d ctx = false) ∧
      (applyLoop d ctx rules).2 = scan ctx (rules.take (i + 1)) := by
  induction rules with
  | nil => simp [applyLoop] at h
  | cons q rules ih =>
    by_cases hq : q.Apply d ctx = true
    · simp only [applyLoop, hq, if_true, Option.some.injEq] at h
      subst h
      exact ⟨0, by simp, hq, by simp, by simp [applyLoop, hq, scan]⟩
    · simp only [applyLoop, hq] at h
      obtain ⟨i, hi, hR, hlt, ht⟩ := ih h
      refine ⟨i + 1, by simpa using hi, hR, ?_, by simp [applyLoop, hq, ht, scan]⟩
      intro j hj Q hQ
      cases j with
      | zero =>
        simp only [List.getElem?_cons_zero, Option.some.injEq] at hQ
        subst hQ
        simpa using hq
      | succ j => exact hlt j (by omega) Q (by simpa using hQ)

/-- A loop over rules none of which applies returns nothing after a full scan. -/
theorem applyLoop_none (d : Deps Ctx Cond Dns CondCfg) (ctx : Ctx) (rules : List (Rule Cond Bal))
    (h : ∀ q ∈ rules, q.Apply d ctx = false) :
    applyLoop d ctx rules = (none, scan ctx rules) := by
  induction rules with
  | nil => rfl
  | cons q rules ih =>
    have hq : q.Apply d ctx = false := h q (by simp)
    have := ih (fun q hq => h q (by simp [hq]))
    simp [applyLoop, hq, this, scan]

/-- With no IpOnDemand attachment and the retry excluded, the pick is one scan of
the rules on the caller's context. -/
theorem pick_single_pass (d : Deps Ctx Cond Dns CondCfg)
    (r : Router Cond Bal Dns CondCfg BalCfg) (ctx : Ctx)
    (h0 : (decide (r.domainStrategy = .IpOnDemand) && !d.GetSkipDNSResolve ctx) = false)
    (h1 : (decide (r.domainStrategy ≠ .IpIfNonMatch) || (d.GetTargetDomain ctx).length == 0
        || d.GetSkipDNSResolve ctx) = true) :
    pickRouteInternal d r ctx =
      ⟨(applyLoop d ctx r.rules).1, ctx,
        if (applyLoop d ctx r.rules).1.isNone then some Err.ErrNoClue else none,
        (applyLoop d ctx r.rules).2⟩ := by
  unfold pickRouteInternal
  simp only [h0, Bool.false_eq_true, if_false, List.nil_append]
  split
  · next R t1 heq => simp [heq]
  · next t1 heq => rw [if_pos h1]; simp [heq]

/-- Under IpIfNonMatch, with a target domain and the skip flag unset, a first scan
that matches nothing is followed by one attachment and a second scan. -/
theorem pick_second_pass (d : Deps Ctx Cond Dns CondCfg)
    (r : Router Cond Bal Dns CondCfg BalCfg) (ctx : Ctx)
    (hs : r.domainStrategy = .IpIfNonMatch) (hd : d.GetTargetDomain ctx ≠ "")
    (hk : d.GetSkipDNSResolve ctx = false) (hno : (applyLoop d ctx r.rules).1 = none) :
    pickRouteInternal d r ctx =
      ⟨(applyLoop d (d.ContextWithDNSClient ctx r.dns) r.rules).1,
        d.ContextWithDNSClient ctx r.dns,
        if (applyLoop d (d.ContextWithDNSClient ctx r.dns) r.rules).1.isNone
          then some Err.ErrNoClue else none,
        (applyLoop d ctx r.rules).2 ++ Event.attachDNS ctx ::
          (applyLoop d (d.ContextWithDNSClient ctx r.dns) r.rules).2⟩ := by
  have hlen : ((d.GetTargetDomain ctx).length == 0) = false := by
    cases hdom : d.GetTargetDomain ctx with
    | mk data =>
      cases data with
      | nil => exact absurd hdom hd
      | cons c cs => simp [String.length]
  have h0 : (decide (r.domainStrategy = .IpOnDemand) && !d.GetSkipDNSResolve ctx) = false := by
    simp [hs]
  have h1 : ¬ (decide (r.domainStrategy ≠ .IpIfNonMatch) || (d.GetTargetDomain ctx).length == 0
      || d.GetSkipDNSResolve ctx) = true := by
    rw [hlen, hk]; simp [hs]
  unfold pickRouteInternal
  simp only [h0, Bool.false_eq_true, if_false, List.nil_append]
  split
  · next R t1 heq => simp [heq] at hno
  · next t1 heq =>
    rw [if_neg h1]
    split
    · next R t2 heq2 => simp [heq2, heq]
    · next t2 heq2 => simp [heq2, heq]

/-- In every branch the outcome is that of the last scan: the rule returned is the
one that scan returns, on the context returned, the error is `ErrNoClue` exactly
when there is no rule, and the trace ends with the calls of that scan. -/
theorem pick_last_scan (d : Deps Ctx Cond Dns CondCfg)
    (r : Router Cond Bal Dns CondCfg BalCfg) (ctx : Ctx) :
    (pickRouteInternal d r ctx).rule =
        (applyLoop d (pickRouteInternal d r ctx).ctx r.rules).1 ∧
      (pickRouteInternal d r ctx).err =
        (if (pickRouteInternal d r ctx).rule.isNone then some Err.ErrNoClue else none) ∧
      ∃ before, (pickRouteInternal d r ctx).trace =
        before ++ (applyLoop d (pickRouteInternal d r ctx).ctx r.rules).2 := by
  unfold pickRouteInternal
  simp only
  generalize (if (decide (r.domainStrategy = .IpOnDemand) && !d.GetSkipDNSResolve ctx) = true
    then d.ContextWithDNSClient ctx r.dns else ctx) = ctx1
  generalize (if (decide (r.domainStrategy = .IpOnDemand) && !d.GetSkipDNSResolve ctx) = true
    then [Event.attachDNS ctx] else ([] : List (Event Ctx Cond Bal))) = t0
  split
  · next R1 t1 heq => exact ⟨by rw [heq], rfl, t0, by rw [heq]⟩
  · next t1 heq =>
    split
    · exact ⟨by rw [heq], rfl, t0, by rw [heq]⟩
    · split
      · next R2 t2 heq2 =>
        exact ⟨by rw [heq2], rfl, t0 ++ t1 ++ [Event.attachDNS ctx1], by rw [heq2]; simp⟩
      · next t2 heq2 =>
        exact ⟨by rw [heq2], rfl, t0 ++ t1 ++ [Event.attachDNS ctx1], by rw [heq2]; simp⟩

/-- Claim C1: when `pickRouteInternal` selects a rule, that rule sits at some index
of the active list, it applies on the context of the pass that selected it (the
context returned), no rule at a smaller index applies on that context, and that
pass, the last stretch of the trace, applied exactly the rules up to that index
in list order. -/
theorem pickRouteInternal_selects_first_match (d : Deps Ctx Cond Dns CondCfg)
    (r : Router Cond Bal Dns CondCfg BalCfg) (ctx : Ctx) (R : Rule Cond Bal)
    (h : (pickRouteInternal d r ctx).rule = some R) :
    ∃ i, r.rules[i]? = some R ∧
      R.Apply d (pickRouteInternal d r ctx).ctx = true ∧
      (∀ j, j < i → ∀ Q, r.rules[j]? = some Q →
        Q.Apply d (pickRouteInternal d r ctx).ctx = false) ∧
      (∃ before, (pickRouteInternal d r ctx).trace =
        before ++ scan (pickRouteInternal d r ctx).ctx (r.rules.take (i + 1))) ∧
      (pickRouteInternal d r ctx).err = none := by
  obtain ⟨hrule, herr, before, htrace⟩ := pick_last_scan d r ctx
  rw [h] at hrule herr
  obtain ⟨i, hi, hR, hlt, ht⟩ := applyLoop_some d _ r.rules R hrule.symm
  exact ⟨i, hi, hR, hlt, ⟨before, by rw [htrace, ht]⟩, by simpa using herr⟩

/-- Two rules match `example.com` under IpOnDemand; the earlier one is selected. -/
theorem pickRouteInternal_selects_first_match_witness :
    (pickRouteInternal Sample.deps
        (Sample.router .IpOnDemand [Sample.rNoTag, Sample.rIp, Sample.rDomain]) Sample.ctx).rule
      = some Sample.rIp ∧
    ∃ i, (Sample.router .IpOnDemand [Sample.rNoTag, Sample.rIp, Sample.rDomain]).rules[i]?
        = some Sample.rIp ∧
      Sample.rIp.Apply Sample.deps (pickRouteInternal Sample.deps
        (Sample.router .IpOnDemand [Sample.rNoTag, Sample.rIp, Sample.rDomain]) Sample.ctx).ctx
        = true ∧
      (∀ j, j < i → ∀ Q,
        (Sample.router .IpOnDemand [Sample.rNoTag, Sample.rIp, Sample.rDomain]).rules[j]? = some Q →
        Q.Apply Sample.deps (pickRouteInternal Sample.deps
          (Sample.router .IpOnDemand [Sample.rNoTag, Sample.rIp, Sample.rDomain]) Sample.ctx).ctx
          = false) ∧
      (∃ before, (pickRouteInternal Sample.deps
          (Sample.router .IpOnDemand [Sample.rNoTag, Sample.rIp, Sample.rDomain]) Sample.ctx).trace =
        before ++ scan (pickRouteInternal Sample.deps
          (Sample.router .IpOnDemand [Sample.rNoTag, Sample.rIp, Sample.rDomain]) Sample.ctx).ctx
          ((Sample.router .IpOnDemand [Sample.rNoTag, Sample.rIp, Sample.rDomain]).rules.take (i + 1))) ∧
      (pickRouteInternal Sample.deps
        (Sample.router .IpOnDemand [Sample.rNoTag, Sample.rIp, Sample.rDomain]) Sample.ctx).err = none :=
  ⟨by decide, pickRouteInternal_selects_first_match Sample.deps
    (Sample.router .IpOnDemand [Sample.rNoTag, Sample.rIp, Sample.rDomain]) Sample.ctx Sample.rIp
    (by decide)⟩

/-- Claim C2: under IpIfNonMatch, for a context with a non-empty target domain and
the skip flag unset on which no rule applies, the pick scans the whole list on
the caller's context, attaches the DNS client once, and scans the list again in
order on the attached context, stopping at the first rule that applies there,
which it returns; when none applies there either the result is `ErrNoClue` with
no rule, both scans are complete and `Apply` was called twice per rule. -/
theorem pickRouteInternal_ipIfNonMatch_retry (d : Deps Ctx Cond Dns CondCfg)
    (r : Router Cond Bal Dns CondCfg BalCfg) (ctx : Ctx)
    (hs : r.domainStrategy = .IpIfNonMatch) (hd : d.GetTargetDomain ctx ≠ "")
    (hk : d.GetSkipDNSResolve ctx = false)
    (hno : ∀ q ∈ r.rules, q.Apply d ctx = false) :
    attachCount (pickRouteInternal d r ctx).trace = 1 ∧
    (pickRouteInternal d r ctx).ctx = d.ContextWithDNSClient ctx r.dns ∧
    (pickRouteInternal d r ctx).rule =
      r.rules.find? (fun q => q.Apply d (d.ContextWithDNSClient ctx r.dns)) ∧
    (∃ k, k ≤ r.rules.length ∧
      (pickRouteInternal d r ctx).trace =
        scan ctx r.rules ++ Event.attachDNS ctx ::
          scan (d.ContextWithDNSClient ctx r.dns) (r.rules.take k) ∧
      ((pickRouteInternal d r ctx).rule = none → k = r.rules.length)) ∧
    ((∀ q ∈ r.rules, q.Apply d (d.ContextWithDNSClient ctx r.dns) = false) →
      (pickRouteInternal d r ctx).rule = none ∧
      (pickRouteInternal d r ctx).err = some Err.ErrNoClue ∧
      (pickRouteInternal d r ctx).trace =
        scan ctx r.rules ++ Event.attachDNS ctx ::
          scan (d.ContextWithDNSClient ctx r.dns) r.rules ∧
      applyCount (pickRouteInternal d r ctx).trace = 2 * r.rules.length) := by
  have h1 := applyLoop_none d ctx r.rules hno
  have hp := pick_second_pass d r ctx hs hd hk (by rw [h1])
  rw [hp, h1]
  obtain ⟨k, hk1, hk2, hk3⟩ := applyLoop_snd d (d.ContextWithDNSClient ctx r.dns) r.rules
  refine ⟨?_, rfl, applyLoop_fst _ _ _, ⟨k, hk1, by simp only [hk2], hk3⟩, ?_⟩
  · simp only [hk2, attachCount_append, attachCount_scan, attachCount]
  · intro hno2
    have h2 := applyLoop_none d (d.ContextWithDNSClient ctx r.dns) r.rules hno2
    rw [h2]
    refine ⟨rfl, rfl, rfl, ?_⟩
    simp only [applyCount_append, applyCount_scan, applyCount]
    omega

/-- Under IpIfNonMatch a pick over a rule matching a foreign domain and a rule
matching an address that is never resolved makes two full scans. -/
theorem pickRouteInternal_ipIfNonMatch_retry_witness :
    attachCount (pickRouteInternal Sample.deps
      (Sample.router .IpIfNonMatch [Sample.rNoTag, ⟨.ip "10.9.9.9", "block", "r3", none⟩])
      Sample.ctx).trace = 1 ∧
    applyCount (pickRouteInternal Sample.deps
      (Sample.router .IpIfNonMatch [Sample.rNoTag, ⟨.ip "10.9.9.9", "block", "r3", none⟩])
      Sample.ctx).trace = 4 ∧
    (pickRouteInternal Sample.deps
      (Sample.router .IpIfNonMatch [Sample.rNoTag, ⟨.ip "10.9.9.9", "block", "r3", none⟩])
      Sample.ctx).err = some Err.ErrNoClue :=
  have h := pickRouteInternal_ipIfNonMatch_retry Sample.deps
    (Sample.router .IpIfNonMatch [Sample.rNoTag, ⟨.ip "10.9.9.9", "block", "r3", none⟩])
    Sample.ctx rfl (by decide) rfl (by decide)
  ⟨h.1, (h.2.2.2.2 (by decide)).2.2.2, (h.2.2.2.2 (by decide)).2.1⟩

/-- Claim C3: whatever the domain strategy, a pick on a context whose skip flag is
set never attaches the DNS client, returns the caller's context, and its trace
is an initial stretch of one scan of the rules on the caller's context, so the
list is scanned at most once and every `Apply` call receives that context. -/
theorem pickRouteInternal_skip_no_dns (d : Deps Ctx Cond Dns CondCfg)
    (r : Router Cond Bal Dns CondCfg BalCfg) (ctx : Ctx)
    (hk : d.GetSkipDNSResolve ctx = true) :
    attachCount (pickRouteInternal d r ctx).trace = 0 ∧
    (pickRouteInternal d r ctx).ctx = ctx ∧
    (∃ k, k ≤ r.rules.length ∧ (pickRouteInternal d r ctx).trace = scan ctx (r.rules.take k)) ∧
    (∀ e ∈ (pickRouteInternal d r ctx).trace, ∃ q ∈ r.rules, e = Event.apply q ctx) ∧
    applyCount (pickRouteInternal d r ctx).trace ≤ r.rules.length ∧
    (pickRouteInternal d r ctx).rule = r.rules.find? (fun q => q.Apply d ctx) := by
  have hp := pick_single_pass d r ctx (by simp [hk]) (by simp [hk])
  rw [hp]
  obtain ⟨k, hk1, hk2, -⟩ := applyLoop_snd d ctx r.rules
  rw [hk2]
  refine ⟨attachCount_scan _ _, rfl, ⟨k, hk1, rfl⟩, ?_, ?_, applyLoop_fst _ _ _⟩
  · intro e he
    simp only [scan, List.mem_map] at he
    obtain ⟨q, hq, rfl⟩ := he
    exact ⟨q, List.mem_of_mem_take hq, rfl⟩
  · rw [applyCount_scan]
    simp

/-- Under IpOnDemand, which otherwise attaches the client up front, a context with
the skip flag set is scanned once, unattached. -/
theorem pickRouteInternal_skip_no_dns_witness :
    attachCount (pickRouteInternal Sample.deps
      (Sample.router .IpOnDemand [Sample.rIp]) Sample.ctxSkip).trace = 0 ∧
    (pickRouteInternal Sample.deps
      (Sample.router .IpOnDemand [Sample.rIp]) Sample.ctxSkip).ctx = Sample.ctxSkip :=
  have h := pickRouteInternal_skip_no_dns Sample.deps
    (Sample.router .IpOnDemand [Sample.rIp]) Sample.ctxSkip rfl
  ⟨h.1, h.2.1⟩

/-- Claim C4: under AsIs a pick never attaches the DNS client and makes a single
pass on the caller's context, which it returns: its trace is an initial stretch
of one scan, the rule it returns is the first that applies on that context, a
rule that does not apply on it is never selected, and when no rule applies on
it the result is `ErrNoClue` after one full scan. -/
theorem pickRouteInternal_asIs_single_pass (d : Deps Ctx Cond Dns CondCfg)
    (r : Router Cond Bal Dns CondCfg BalCfg) (ctx : Ctx)
    (hs : r.domainStrategy = .AsIs) :
    attachCount (pickRouteInternal d r ctx).trace = 0 ∧
    (pickRouteInternal d r ctx).ctx = ctx ∧
    (∃ k, k ≤ r.rules.length ∧ (pickRouteInternal d r ctx).trace = scan ctx (r.rules.take k)) ∧
    (pickRouteInternal d r ctx).rule = r.rules.find? (fun q => q.Apply d ctx) ∧
    (∀ q : Rule Cond Bal, q.Apply d ctx = false → (pickRouteInternal d r ctx).rule ≠ some q) ∧
    ((∀ q ∈ r.rules, q.Apply d ctx = false) →
      (pickRouteInternal d r ctx).rule = none ∧
      (pickRouteInternal d r ctx).err = some Err.ErrNoClue ∧
      (pickRouteInternal d r ctx).trace = scan ctx r.rules) := by
  have hp := pick_single_pass d r ctx (by simp [hs]) (by simp [hs])
  rw [hp]
  obtain ⟨k, hk1, hk2, -⟩ := applyLoop_snd d ctx r.rules
  refine ⟨by simp only [hk2]; exact attachCount_scan _ _, rfl, ⟨k, hk1, hk2⟩,
    applyLoop_fst _ _ _, ?_, ?_⟩
  · intro q hq hsel
    simp only [applyLoop_fst] at hsel
    have := List.find?_some hsel
    simp [hq] at this
  · intro hno
    rw [applyLoop_none d ctx r.rules hno]
    simp

/-- Under AsIs the address rule is not selected for a context without IPs, although
the DNS table would resolve the domain to the matching address. -/
theorem pickRouteInternal_asIs_single_pass_witness :
    attachCount (pickRouteInternal Sample.deps
      (Sample.router .AsIs [Sample.rIp]) Sample.ctx).trace = 0 ∧
    (pickRouteInternal Sample.deps (Sample.router .AsIs [Sample.rIp]) Sample.ctx).rule = none ∧
    (pickRouteInternal Sample.deps (Sample.router .AsIs [Sample.rIp]) Sample.ctx).err
      = some Err.ErrNoClue :=
  have h := pickRouteInternal_asIs_single_pass Sample.deps
    (Sample.router .AsIs [Sample.rIp]) Sample.ctx rfl
  ⟨h.1, (h.2.2.2.2.2 (by decide)).1, (h.2.2.2.2.2 (by decide)).2.1⟩

/-- The rule a pick returns: the first match of the first scan, else, when the
pick retries, the first match of the scan on the attached context. -/
theorem pick_rule (d : Deps Ctx Cond Dns CondCfg)
    (r : Router Cond Bal Dns CondCfg BalCfg) (ctx : Ctx) :
    (pickRouteInternal d r ctx).rule =
      (r.rules.find? (fun q => q.Apply d (firstCtx d r ctx))).or
        (if retries d r ctx then
          r.rules.find? (fun q => q.Apply d (d.ContextWithDNSClient (firstCtx d r ctx) r.dns))
        else none) := by
  unfold pickRouteInternal retries firstCtx
  simp only
  generalize (if (decide (r.domainStrategy = .IpOnDemand) && !d.GetSkipDNSResolve ctx) = true
    then d.ContextWithDNSClient ctx r.dns else ctx) = ctx1
  generalize (if (decide (r.domainStrategy = .IpOnDemand) && !d.GetSkipDNSResolve ctx) = true
    then [Event.attachDNS ctx] else ([] : List (Event Ctx Cond Bal))) = t0
  generalize (decide (r.domainStrategy ≠ .IpIfNonMatch) || (d.GetTargetDomain ctx1).length == 0
    || d.GetSkipDNSResolve ctx) = b
  rw [← applyLoop_fst, ← applyLoop_fst]
  split
  · next R1 t1 heq => simp [heq]
  · next t1 heq =>
    cases b
    · split
      · next h => simp at h
      · split
        · next R2 t2 heq2 => simp [heq, heq2]
        · next t2 heq2 => simp [heq, heq2]
    · simp [heq]

end Pick

/-! ## Reloading rules -/

section Reload

variable {Ctx Cond Bal Dns CondCfg BalCfg : Type}

/-- One turn of the loop on an entry whose tag is already active. -/
theorem reloadLoop_cons_dup (d : Deps Ctx Cond Dns CondCfg)
    (r : Router Cond Bal Dns CondCfg BalCfg) (c : RoutingRule CondCfg)
    (cs : List (RoutingRule CondCfg)) (hex : RuleExists r c.RuleTag = true) :
    reloadLoop d r (c :: cs) = (r, some (Err.duplicateRuleTag c.RuleTag)) := by
  simp [reloadLoop, hex]

/-- One turn of the loop on an entry that does not build. -/
theorem reloadLoop_cons_none (d : Deps Ctx Cond Dns CondCfg)
    (r : Router Cond Bal Dns CondCfg BalCfg) (c : RoutingRule CondCfg)
    (cs : List (RoutingRule CondCfg)) (hex : RuleExists r c.RuleTag = false)
    (hb : ruleOf d r.balancers c = none) :
    ∃ e, reloadLoop d r (c :: cs) = (r, some e) ∧ ∀ t, e ≠ Err.duplicateRuleTag t := by
  unfold ruleOf at hb
  cases hc : d.BuildCondition c with
  | error msg => exact ⟨Err.buildCondition msg, by simp [reloadLoop, hex, hc], by simp⟩
  | ok cond =>
    rw [hc] at hb
    by_cases hl : c.GetBalancingTag.length > 0
    · simp only [hl, if_true, Option.map_eq_none'] at hb
      exact ⟨Err.balancerNotFound c.GetBalancingTag, by simp [reloadLoop, hex, hc, hl, hb],
        by simp⟩
    · simp [hl] at hb

/-- One turn of the loop on an entry that is accepted: the built rule is appended
and the loop goes on. -/
theorem reloadLoop_cons_some (d : Deps Ctx Cond Dns CondCfg)
    (r : Router Cond Bal Dns CondCfg BalCfg) (c : RoutingRule CondCfg)
    (cs : List (RoutingRule CondCfg)) (rr : Rule Cond Bal)
    (hex : RuleExists r c.RuleTag = false) (hb : ruleOf d r.balancers c = some rr) :
    reloadLoop d r (c :: cs) = reloadLoop d { r with rules := r.rules ++ [rr] } cs := by
  unfold ruleOf at hb
  cases hc : d.BuildCondition c with
  | error msg => rw [hc] at hb; simp at hb
  | ok cond =>
    rw [hc] at hb
    by_cases hl : c.GetBalancingTag.length > 0
    · simp only [hl, if_true, Option.map_eq_some'] at hb
      obtain ⟨b, hlook, rfl⟩ := hb
      simp [reloadLoop, hex, hc, hl, hlook, RoutingRule.GetRuleTag]
    · simp only [hl, if_false, Option.some.injEq] at hb
      subst hb
      simp [reloadLoop, hex, hc, hl, RoutingRule.GetRuleTag]

/-- The state the loop leaves: the rules built from the first `k` entries appended
to the active list, everything else untouched.  `k` is the whole batch when the
loop ran through, and the index of the rejected entry when it returned an
error. -/
theorem reloadLoop_spec (d : Deps Ctx Cond Dns CondCfg) (cs : List (RoutingRule CondCfg)) :
    ∀ r : Router Cond Bal Dns CondCfg BalCfg, ∃ k built,
      k ≤ cs.length ∧
      List.Forall₂ (fun c rr => ruleOf d r.balancers c = some rr) (cs.take k) built ∧
      (reloadLoop d r cs).1 = { r with rules := r.rules ++ built } ∧
      ((reloadLoop d r cs).2 = none → k = cs.length) ∧
      (∀ e, (reloadLoop d r cs).2 = some e → ∃ c, cs[k]? = some c ∧
        ((RuleExists { r with rules := r.rules ++ built } c.RuleTag = true ∧
            e = Err.duplicateRuleTag c.RuleTag) ∨
          (ruleOf d r.balancers c = none ∧ ∀ t, e ≠ Err.duplicateRuleTag t))) := by
  induction cs with
  | nil =>
    intro r
    exact ⟨0, [], by simp, by simp, by simp [reloadLoop], by simp, by simp [reloadLoop]⟩
  | cons c cs ih =>
    intro r
    by_cases hex : RuleExists r c.RuleTag = true
    · refine ⟨0, [], by simp, by simp, by simp [reloadLoop_cons_dup d r c cs hex], ?_, ?_⟩
      · simp [reloadLoop_cons_dup d r c cs hex]
      · intro e he
        rw [reloadLoop_cons_dup d r c cs hex] at he
        simp only [Option.some.injEq] at he
        exact ⟨c, by simp, Or.inl ⟨by simpa using hex, he.symm⟩⟩
    · have hex : RuleExists r c.RuleTag = false := by simpa using hex
      cases hb : ruleOf d r.balancers c with
      | none =>
        obtain ⟨e0, he0, hnd⟩ := reloadLoop_cons_none d r c cs hex hb
        refine ⟨0, [], by simp, by simp, by simp [he0], by simp [he0], ?_⟩
        intro e he
        rw [he0] at he
        simp only [Option.some.injEq] at he
        subst he
        exact ⟨c, by simp, Or.inr ⟨hb, hnd⟩⟩
      | some rr =>
        rw [reloadLoop_cons_some d r c cs rr hex hb]
        obtain ⟨k, built, hk, hf, hst, hn, herr⟩ := ih { r with rules := r.rules ++ [rr] }
        refine ⟨k + 1, rr :: built, by simpa using hk, ?_, ?_, ?_, ?_⟩
        · simpa using ⟨hb, hf⟩
        · simpa using hst
        · intro h; simpa using hn h
        · intro e he
          obtain ⟨c1, hc1, hcase⟩ := herr e he
          refine ⟨c1, by simpa using hc1, ?_⟩
          simpa using hcase

/-- A reload that succeeds is a loop that ran through, followed by the assignment
of the configuration. -/
theorem ReloadRules_ok (d : Deps Ctx Cond Dns CondCfg) (r : Router Cond Bal Dns CondCfg BalCfg)
    (config : Config CondCfg BalCfg) (h : (ReloadRules d r config).2 = none) :
    (reloadLoop d r config.Rule).2 = none ∧
      (ReloadRules d r config).1 = { (reloadLoop d r config.Rule).1 with config := some config } := by
  unfold ReloadRules at h ⊢
  split at h
  · next r1 heq => simp [heq]
  · next r1 e heq => simp at h

/-- A reload that fails returns the state and the error of the loop. -/
theorem ReloadRules_err (d : Deps Ctx Cond Dns CondCfg) (r : Router Cond Bal Dns CondCfg BalCfg)
    (config : Config CondCfg BalCfg) (e : Err) (h : (ReloadRules d r config).2 = some e) :
    (reloadLoop d r config.Rule).2 = some e ∧
      (ReloadRules d r config).1 = (reloadLoop d r config.Rule).1 := by
  unfold ReloadRules at h ⊢
  split at h
  · next r1 heq => simp at h
  · next r1 e1 heq =>
    simp only [Option.some.injEq] at h
    subst h
    simp [heq]

/-- The error of a reload is that of its loop. -/
theorem ReloadRules_snd (d : Deps Ctx Cond Dns CondCfg) (r : Router Cond Bal Dns CondCfg BalCfg)
    (config : Config CondCfg BalCfg) :
    (ReloadRules d r config).2 = (reloadLoop d r config.Rule).2 := by
  unfold ReloadRules
  split
  · next r1 heq => simp [heq]
  · next r1 e heq => simp [heq]

/-- A successful reload: the state after it, with the rules it appended. -/
theorem ReloadRules_ok_state (d : Deps Ctx Cond Dns CondCfg)
    (r : Router Cond Bal Dns CondCfg BalCfg) (config : Config CondCfg BalCfg)
    (h : (ReloadRules d r config).2 = none) :
    ∃ built, List.Forall₂ (fun c rr => ruleOf d r.balancers c = some rr) config.Rule built ∧
      (ReloadRules d r config).1 =
        { r with rules := r.rules ++ built, config := some config } := by
  obtain ⟨h1, h2⟩ := ReloadRules_ok d r config h
  obtain ⟨k, built, -, hf, hst, hn, -⟩ := reloadLoop_spec d config.Rule r
  have hk := hn h1
  subst hk
  rw [List.take_length] at hf
  exact ⟨built, hf, by rw [h2, hst]⟩

/-- Claim C5: after a successful `ReloadRules(config)` on a router with active list
`L`, the active list is `L` followed by the rules built from the entries of
`config.Rule`, one per entry and in their order; `L` is an initial segment of
it, every old rule keeps its index, and its length is `|L| + |config.Rule|`. -/
theorem ReloadRules_appends (d : Deps Ctx Cond Dns CondCfg)
    (r : Router Cond Bal Dns CondCfg BalCfg) (config : Config CondCfg BalCfg)
    (h : (ReloadRules d r config).2 = none) :
    ∃ built, List.Forall₂ (fun c rr => ruleOf d r.balancers c = some rr) config.Rule built ∧
      (ReloadRules d r config).1.rules = r.rules ++ built ∧
      r.rules <+: (ReloadRules d r config).1.rules ∧
      (∀ i, i < r.rules.length → (ReloadRules d r config).1.rules[i]? = r.rules[i]?) ∧
      (ReloadRules d r config).1.rules.length = r.rules.length + config.Rule.length := by
  obtain ⟨built, hf, hst⟩ := ReloadRules_ok_state d r config h
  rw [hst]
  refine ⟨built, hf, rfl, ⟨built, rfl⟩, ?_, ?_⟩
  · intro i hi
    exact List.getElem?_append_left hi
  · simp [hf.length_eq]

/-- A batch of two entries, one with a balancing tag, appended after one active rule. -/
theorem ReloadRules_appends_witness :
    ∃ built, List.Forall₂ (fun c rr => ruleOf Sample.deps [("b1", "balancer-1")] c = some rr)
        [⟨"n1", .BalancingTag "b1", .ip "1.1.1.1"⟩, ⟨"n2", .Tag "x", .domain "a.b"⟩] built ∧
      (ReloadRules Sample.deps (Sample.router .AsIs [Sample.rDomain])
        (Sample.cfg [⟨"n1", .BalancingTag "b1", .ip "1.1.1.1"⟩,
          ⟨"n2", .Tag "x", .domain "a.b"⟩])).1.rules = [Sample.rDomain] ++ built ∧
      [Sample.rDomain] <+: (ReloadRules Sample.deps (Sample.router .AsIs [Sample.rDomain])
        (Sample.cfg [⟨"n1", .BalancingTag "b1", .ip "1.1.1.1"⟩,
          ⟨"n2", .Tag "x", .domain "a.b"⟩])).1.rules ∧
      (∀ i, i < 1 → (ReloadRules Sample.deps (Sample.router .AsIs [Sample.rDomain])
        (Sample.cfg [⟨"n1", .BalancingTag "b1", .ip "1.1.1.1"⟩,
          ⟨"n2", .Tag "x", .domain "a.b"⟩])).1.rules[i]? = [Sample.rDomain][i]?) ∧
      (ReloadRules Sample.deps (Sample.router .AsIs [Sample.rDomain])
        (Sample.cfg [⟨"n1", .BalancingTag "b1", .ip "1.1.1.1"⟩,
          ⟨"n2", .Tag "x", .domain "a.b"⟩])).1.rules.length = 1 + 2 :=
  ReloadRules_appends Sample.deps (Sample.router .AsIs [Sample.rDomain])
    (Sample.cfg [⟨"n1", .BalancingTag "b1", .ip "1.1.1.1"⟩, ⟨"n2", .Tag "x", .domain "a.b"⟩])
    (by decide)

/-- Claim C6, as stated, fails: a batch whose second entry repeats the active tag
`r1` is rejected with the duplicate-tag error, yet its first entry has become
active. -/
theorem ReloadRules_not_all_or_nothing :
    (ReloadRules Sample.deps (Sample.router .AsIs [Sample.rDomain])
        (Sample.cfg [⟨"n1", .Tag "x", .ip "1.1.1.1"⟩, ⟨"r1", .Tag "x", .ip "1.1.1.1"⟩])).2
      = some (Err.duplicateRuleTag "r1") ∧
    (ReloadRules Sample.deps (Sample.router .AsIs [Sample.rDomain])
        (Sample.cfg [⟨"n1", .Tag "x", .ip "1.1.1.1"⟩, ⟨"r1", .Tag "x", .ip "1.1.1.1"⟩])).1.rules
      = [Sample.rDomain, ⟨.ip "1.1.1.1", "x", "n1", none⟩] ∧
    (ReloadRules Sample.deps (Sample.router .AsIs [Sample.rDomain])
        (Sample.cfg [⟨"n1", .Tag "x", .ip "1.1.1.1"⟩, ⟨"r1", .Tag "x", .ip "1.1.1.1"⟩])).1.rules
      ≠ (Sample.router .AsIs [Sample.rDomain]).rules := by
  decide

/-- The loop of `RuleExists` finds a tag exactly when some rule carries it. -/
theorem ruleExistsLoop_iff (tag : String) (rules : List (Rule Cond Bal)) :
    ruleExistsLoop tag rules = true ↔ ∃ q ∈ rules, q.RuleTag = tag := by
  induction rules with
  | nil => simp [ruleExistsLoop]
  | cons q rules ih =>
    by_cases hq : q.RuleTag = tag
    · simp [ruleExistsLoop, hq]
    · simp [ruleExistsLoop, hq, ih]

/-- `RuleExists` holds exactly for a non-empty tag carried by an active rule. -/
theorem RuleExists_iff (r : Router Cond Bal Dns CondCfg BalCfg) (tag : String) :
    RuleExists r tag = true ↔ tag ≠ "" ∧ ∃ q ∈ r.rules, q.RuleTag = tag := by
  unfold RuleExists
  by_cases ht : tag = ""
  · simp [ht]
  · simp [ht, ruleExistsLoop_iff]

/-- The loop on a batch holding, at index `i`, a non-empty tag that is active. -/
theorem reloadLoop_duplicate (d : Deps Ctx Cond Dns CondCfg) (cs : List (RoutingRule CondCfg)) :
    ∀ (r : Router Cond Bal Dns CondCfg BalCfg) (i : Nat) (c : RoutingRule CondCfg),
      cs[i]? = some c → c.RuleTag ≠ "" → (∃ q ∈ r.rules, q.RuleTag = c.RuleTag) →
      (reloadLoop d r cs).2 ≠ none ∧
      ((∀ j, j < i → ∀ c1, cs[j]? = some c1 → (ruleOf d r.balancers c1).isSome = true) →
        ∃ j c1, j ≤ i ∧ cs[j]? = some c1 ∧
          (reloadLoop d r cs).2 = some (Err.duplicateRuleTag c1.RuleTag)) := by
  induction cs with
  | nil => intro r i c hc; simp at hc
  | cons c0 cs ih =>
    intro r i c hc hne hdup
    by_cases hex : RuleExists r c0.RuleTag = true
    · rw [reloadLoop_cons_dup d r c0 cs hex]
      exact ⟨by simp, fun _ => ⟨0, c0, by simp, by simp, rfl⟩⟩
    · have hex0 : RuleExists r c0.RuleTag = false := by simpa using hex
      cases i with
      | zero =>
        simp only [List.getElem?_cons_zero, Option.some.injEq] at hc
        subst hc
        exact absurd ((RuleExists_iff r c0.RuleTag).2 ⟨hne, hdup⟩) hex
      | succ i =>
        simp only [List.getElem?_cons_succ] at hc
        cases hb : ruleOf d r.balancers c0 with
        | none =>
          obtain ⟨e0, he0, -⟩ := reloadLoop_cons_none d r c0 cs hex0 hb
          rw [he0]
          refine ⟨by simp, fun hall => ?_⟩
          have := hall 0 (by omega) c0 (by simp)
          simp [hb] at this
        | some rr =>
          rw [reloadLoop_cons_some d r c0 cs rr hex0 hb]
          obtain ⟨q, hq, hqt⟩ := hdup
          obtain ⟨h1, h2⟩ := ih { r with rules := r.rules ++ [rr] } i c hc hne
            ⟨q, by simp [hq], hqt⟩
          refine ⟨h1, fun hall => ?_⟩
          obtain ⟨j, c1, hj, hc1, hres⟩ := h2 (fun j hj c1 hc1 =>
            hall (j + 1) (by omega) c1 (by simpa using hc1))
          exact ⟨j + 1, c1, by omega, by simpa using hc1, hres⟩

/-- Claim C7, as stated, fails twice over: an entry whose empty rule tag equals the
empty tag of an active rule is accepted, and a batch whose first entry does not
build returns the build error although its second entry repeats the active tag
`r1`. -/
theorem ReloadRules_duplicate_not_reported :
    ((∃ c ∈ (Sample.cfg [⟨"", .Tag "x", .ip "1.1.1.1"⟩]).Rule,
        ∃ q ∈ (Sample.router .AsIs [Sample.rNoTag]).rules, q.RuleTag = c.RuleTag) ∧
      (ReloadRules Sample.deps (Sample.router .AsIs [Sample.rNoTag])
        (Sample.cfg [⟨"", .Tag "x", .ip "1.1.1.1"⟩])).2 = none) ∧
    ((∃ c ∈ (Sample.cfg [⟨"n1", .Tag "x", .empty⟩, ⟨"r1", .Tag "x", .ip "1.1.1.1"⟩]).Rule,
        ∃ q ∈ (Sample.router .AsIs [Sample.rDomain]).rules, q.RuleTag = c.RuleTag) ∧
      (ReloadRules Sample.deps (Sample.router .AsIs [Sample.rDomain])
        (Sample.cfg [⟨"n1", .Tag "x", .empty⟩, ⟨"r1", .Tag "x", .ip "1.1.1.1"⟩])).2
        = some (Err.buildCondition "this rule has no effective fields")) := by
  decide

/-- Claim C7, amended: if an entry of `config.Rule` has a non-empty rule tag equal to
that of an active rule, `ReloadRules(config)` returns an error; and when every
entry before it builds (condition and balancer), that error is the duplicate-tag
error of that entry or of an earlier one. -/
theorem ReloadRules_duplicate_tag (d : Deps Ctx Cond Dns CondCfg)
    (r : Router Cond Bal Dns CondCfg BalCfg) (config : Config CondCfg BalCfg)
    (i : Nat) (c : RoutingRule CondCfg) (hc : config.Rule[i]? = some c)
    (hne : c.RuleTag ≠ "") (hdup : ∃ q ∈ r.rules, q.RuleTag = c.RuleTag) :
    (ReloadRules d r config).2 ≠ none ∧
    ((∀ j, j < i → ∀ c1, config.Rule[j]? = some c1 → (ruleOf d r.balancers c1).isSome = true) →
      ∃ j c1, j ≤ i ∧ config.Rule[j]? = some c1 ∧
        (ReloadRules d r config).2 = some (Err.duplicateRuleTag c1.RuleTag)) := by
  rw [ReloadRules_snd]
  exact reloadLoop_duplicate d config.Rule r i c hc hne hdup

/-- The scenario of the specification: reloading a rule tagged `r1` while `r1` is
active is rejected with the duplicate-tag error. -/
theorem ReloadRules_duplicate_tag_witness :
    (ReloadRules Sample.deps (Sample.router .AsIs [Sample.rDomain])
      (Sample.cfg [⟨"n1", .Tag "x", .ip "1.1.1.1"⟩, ⟨"r1", .Tag "x", .ip "1.1.1.1"⟩])).2 ≠ none ∧
    ∃ j c1, j ≤ 1 ∧
      (Sample.cfg [⟨"n1", .Tag "x", .ip "1.1.1.1"⟩, ⟨"r1", .Tag "x", .ip "1.1.1.1"⟩]).Rule[j]?
        = some c1 ∧
      (ReloadRules Sample.deps (Sample.router .AsIs [Sample.rDomain])
        (Sample.cfg [⟨"n1", .Tag "x", .ip "1.1.1.1"⟩, ⟨"r1", .Tag "x", .ip "1.1.1.1"⟩])).2
        = some (Err.duplicateRuleTag c1.RuleTag) :=
  have h := ReloadRules_duplicate_tag Sample.deps (Sample.router .AsIs [Sample.rDomain])
    (Sample.cfg [⟨"n1", .Tag "x", .ip "1.1.1.1"⟩, ⟨"r1", .Tag "x", .ip "1.1.1.1"⟩])
    1 ⟨"r1", .Tag "x", .ip "1.1.1.1"⟩ rfl (by decide) ⟨Sample.rDomain, by decide, rfl⟩
  ⟨h.1, h.2 (by
    intro j hj c1 hc1
    have hj0 : j = 0 := by omega
    subst hj0
    simp only [Sample.cfg, List.getElem?_cons_zero, Option.some.injEq] at hc1
    subst hc1
    rfl)⟩

/-- Claim C8, as stated, fails under IpIfNonMatch: the address rule is selected in
the second, DNS-attached pass before the reload; after a reload that appends a
rule matching the domain, that new rule is selected in the first pass. -/
theorem ReloadRules_can_preempt_second_pass :
    (pickRouteInternal Sample.deps (Sample.router .IpIfNonMatch [Sample.rIp]) Sample.ctx).rule
      = some Sample.rIp ∧
    (ReloadRules Sample.deps (Sample.router .IpIfNonMatch [Sample.rIp])
      (Sample.cfg [⟨"n1", .Tag "direct", .domain "example.com"⟩])).2 = none ∧
    (pickRouteInternal Sample.deps
      (ReloadRules Sample.deps (Sample.router .IpIfNonMatch [Sample.rIp])
        (Sample.cfg [⟨"n1", .Tag "direct", .domain "example.com"⟩])).1 Sample.ctx).rule
      = some ⟨.domain "example.com", "direct", "n1", none⟩ ∧
    (pickRouteInternal Sample.deps
      (ReloadRules Sample.deps (Sample.router .IpIfNonMatch [Sample.rIp])
        (Sample.cfg [⟨"n1", .Tag "direct", .domain "example.com"⟩])).1 Sample.ctx).rule
      ≠ some Sample.rIp := by
  decide

/-- Claim C8, amended: after a successful reload a pick that selected the active rule
`R` before still selects `R` when the strategy is not IpIfNonMatch, when some
old rule applies on the caller's context (so `R` was a first-pass match), and
when no reloaded rule applies on the caller's context; under IpIfNonMatch, when
no old rule but some reloaded rule applies on the caller's context, the pick
selects the first such reloaded rule instead. -/
theorem ReloadRules_keeps_selection (d : Deps Ctx Cond Dns CondCfg)
    (r : Router Cond Bal Dns CondCfg BalCfg) (config : Config CondCfg BalCfg) (ctx : Ctx)
    (R : Rule Cond Bal) (hok : (ReloadRules d r config).2 = none)
    (hsel : (pickRouteInternal d r ctx).rule = some R) :
    (r.domainStrategy ≠ .IpIfNonMatch →
      (pickRouteInternal d (ReloadRules d r config).1 ctx).rule = some R) ∧
    ((∃ q ∈ r.rules, q.Apply d ctx = true) →
      (pickRouteInternal d (ReloadRules d r config).1 ctx).rule = some R) ∧
    ((∀ n ∈ (ReloadRules d r config).1.rules.drop r.rules.length, n.Apply d ctx = false) →
      (pickRouteInternal d (ReloadRules d r config).1 ctx).rule = some R) ∧
    (r.domainStrategy = .IpIfNonMatch → (∀ q ∈ r.rules, q.Apply d ctx = false) →
      (∃ n ∈ (ReloadRules d r config).1.rules.drop r.rules.length, n.Apply d ctx = true) →
      (pickRouteInternal d (ReloadRules d r config).1 ctx).rule =
        ((ReloadRules d r config).1.rules.drop r.rules.length).find?
          (fun n => n.Apply d ctx)) := by
  obtain ⟨built, -, hst⟩ := ReloadRules_ok_state d r config hok
  have hfc : firstCtx d (ReloadRules d r config).1 ctx = firstCtx d r ctx := by
    rw [hst]; rfl
  have hre : retries d (ReloadRules d r config).1 ctx = retries d r ctx := by
    rw [hst]; rfl
  have hdns : (ReloadRules d r config).1.dns = r.dns := by rw [hst]
  have hrules : (ReloadRules d r config).1.rules = r.rules ++ built := by rw [hst]
  have hdrop : (ReloadRules d r config).1.rules.drop r.rules.length = built := by
    rw [hrules]; simp
  rw [pick_rule] at hsel
  rw [pick_rule, hfc, hre, hdns, hdrop, hrules]
  simp only [List.find?_append]
  have hnoretry : retries d r ctx = false →
      ((r.rules.find? (fun q => q.Apply d (firstCtx d r ctx))).or
          (built.find? (fun q => q.Apply d (firstCtx d r ctx)))).or
        (if retries d r ctx = true then
          (r.rules.find? (fun q => q.Apply d (d.ContextWithDNSClient (firstCtx d r ctx) r.dns))).or
            (built.find? (fun q => q.Apply d (d.ContextWithDNSClient (firstCtx d r ctx) r.dns)))
        else none) = some R := by
    intro hr
    rw [hr] at hsel ⊢
    simp only [Bool.false_eq_true, if_false, Option.or_none] at hsel ⊢
    rw [hsel]; rfl
  have hfirst : ∀ R1, r.rules.find? (fun q => q.Apply d (firstCtx d r ctx)) = some R1 →
      ((r.rules.find? (fun q => q.Apply d (firstCtx d r ctx))).or
          (built.find? (fun q => q.Apply d (firstCtx d r ctx)))).or
        (if retries d r ctx = true then
          (r.rules.find? (fun q => q.Apply d (d.ContextWithDNSClient (firstCtx d r ctx) r.dns))).or
            (built.find? (fun q => q.Apply d (d.ContextWithDNSClient (firstCtx d r ctx) r.dns)))
        else none) = some R := by
    intro R1 hf
    rw [hf] at hsel ⊢
    simp only [Option.or_some, Option.some.injEq] at hsel ⊢
    exact hsel
  have hctx : r.domainStrategy = .IpIfNonMatch → firstCtx d r ctx = ctx := by
    intro hs
    unfold firstCtx
    rw [if_neg]
    simp [hs]
  refine ⟨?_, ?_, ?_, ?_⟩
  · intro hs
    exact hnoretry (by simp [retries, hs])
  · intro ⟨q, hq, hqa⟩
    by_cases hs : r.domainStrategy = .IpIfNonMatch
    · rcases Option.eq_none_or_eq_some (r.rules.find? (fun q => q.Apply d (firstCtx d r ctx)))
        with hf | ⟨R1, hf⟩
      · rw [List.find?_eq_none, hctx hs] at hf
        exact absurd hqa (hf q hq)
      · exact hfirst R1 hf
    · exact hnoretry (by simp [retries, hs])
  · intro hnew
    by_cases hs : r.domainStrategy = .IpIfNonMatch
    · rcases Option.eq_none_or_eq_some (r.rules.find? (fun q => q.Apply d (firstCtx d r ctx)))
        with hf | ⟨R1, hf⟩
      swap
      · exact hfirst R1 hf
      · have hb : built.find? (fun n => n.Apply d (firstCtx d r ctx)) = none := by
          rw [List.find?_eq_none, hctx hs]
          intro n hn
          simpa using hnew n hn
        rw [hf] at hsel
        rw [hf, hb]
        simp only [Option.none_or] at hsel ⊢
        cases hr : retries d r ctx with
        | false => rw [hr] at hsel; simp at hsel
        | true =>
          rw [hr] at hsel
          simp only [if_true] at hsel ⊢
          rw [hsel]; rfl
    · exact hnoretry (by simp [retries, hs])
  · intro hs hold hnew
    rw [hctx hs]
    have hf : r.rules.find? (fun q => q.Apply d ctx) = none := by
      rw [List.find?_eq_none]
      intro q hq
      simpa using hold q hq
    rw [hf]
    obtain ⟨n, hn, hna⟩ := hnew
    cases hg : built.find? (fun n => n.Apply d ctx) with
    | none =>
      rw [List.find?_eq_none] at hg
      exact absurd hna (hg n hn)
    | some N => simp

/-- A rule selected in the DNS-attached pass stays selected after a reload whose
rule does not apply on the caller's context. -/
theorem ReloadRules_keeps_selection_witness :
    (pickRouteInternal Sample.deps (Sample.router .IpIfNonMatch [Sample.rIp]) Sample.ctx).rule
      = some Sample.rIp ∧
    (pickRouteInternal Sample.deps
      (ReloadRules Sample.deps (Sample.router .IpIfNonMatch [Sample.rIp])
        (Sample.cfg [⟨"n1", .Tag "direct", .domain "example.org"⟩])).1 Sample.ctx).rule
      = some Sample.rIp :=
  ⟨by decide, (ReloadRules_keeps_selection Sample.deps (Sample.router .IpIfNonMatch [Sample.rIp])
    (Sample.cfg [⟨"n1", .Tag "direct", .domain "example.org"⟩]) Sample.ctx Sample.rIp
    (by decide) (by decide)).2.2.1 (by decide)⟩

end Reload

/-! ## Removing rules -/

section Remove

variable {Ctx Cond Bal Dns CondCfg BalCfg : Type}

/-- The loop of `RemoveRule` appends to its accumulator, in order, the rules whose
tag differs from the argument. -/
theorem removeLoop_eq_filter (tag : String) (rules : List (Rule Cond Bal)) :
    ∀ acc : List (Rule Cond Bal),
      removeLoop tag acc rules = acc ++ rules.filter (fun q => decide (q.RuleTag ≠ tag)) := by
  induction rules with
  | nil => intro acc; simp [removeLoop]
  | cons q rules ih =>
    intro acc
    by_cases hq : q.RuleTag = tag
    · simp [removeLoop, hq, ih]
    · simp [removeLoop, hq, ih]

/-- Claim C9: `RemoveRule("")` returns an error and leaves the router state, hence
the active rule list and its length, unchanged. -/
theorem RemoveRule_empty_tag (r : Router Cond Bal Dns CondCfg BalCfg) :
    (RemoveRule r "").2 = some Err.emptyTagName ∧
    (RemoveRule r "").1 = r ∧
    (RemoveRule r "").1.rules = r.rules ∧
    (RemoveRule r "").1.rules.length = r.rules.length := by
  simp [RemoveRule]

/-- Claim C10: for a non-empty tag `RemoveRule(tag)` returns no error and the new
active list is the old one filtered of the rules carrying the tag, the others
in their order and nothing else changed; a tag carried by no rule leaves the
list unchanged, and the count drops by the number of rules carrying the tag, so
by one when exactly one rule carries it. -/
theorem RemoveRule_filters (r : Router Cond Bal Dns CondCfg BalCfg) (tag : String)
    (ht : tag ≠ "") :
    (RemoveRule r tag).2 = none ∧
    (RemoveRule r tag).1 = { r with rules := r.rules.filter (fun q => decide (q.RuleTag ≠ tag)) } ∧
    (RemoveRule r tag).1.rules.Sublist r.rules ∧
    ((∀ q ∈ r.rules, q.RuleTag ≠ tag) → (RemoveRule r tag).1.rules = r.rules) ∧
    (RemoveRule r tag).1.rules.length + r.rules.countP (fun q => decide (q.RuleTag = tag))
      = r.rules.length ∧
    (r.rules.countP (fun q => decide (q.RuleTag = tag)) = 1 →
      (RemoveRule r tag).1.rules.length + 1 = r.rules.length) := by
  have hst : RemoveRule r tag =
      ({ r with rules := r.rules.filter (fun q => decide (q.RuleTag ≠ tag)) }, none) := by
    simp [RemoveRule, ht, removeLoop_eq_filter]
  have hlen : (r.rules.filter (fun q => decide (q.RuleTag ≠ tag))).length
      + r.rules.countP (fun q => decide (q.RuleTag = tag)) = r.rules.length := by
    have h := @List.length_eq_countP_add_countP _
      (fun q : Rule Cond Bal => decide (q.RuleTag ≠ tag)) r.rules
    simp only [List.countP_eq_length_filter] at h ⊢
    simp only [ne_eq, decide_not, Bool.not_not, Bool.not_eq_true, Bool.decide_eq_false] at h ⊢
    omega
  rw [hst]
  refine ⟨rfl, rfl, List.filter_sublist _, ?_, hlen, ?_⟩
  · intro hall
    simp only [List.filter_eq_self]
    intro q hq
    simpa using hall q hq
  · intro h1
    rw [← h1]
    exact hlen

/-- Removing `r1`, carried by one of three rules, leaves the other two in order. -/
theorem RemoveRule_filters_witness :
    (RemoveRule (Sample.router .AsIs [Sample.rNoTag, Sample.rDomain, Sample.rIp]) "r1").2 = none ∧
    (RemoveRule (Sample.router .AsIs [Sample.rNoTag, Sample.rDomain, Sample.rIp]) "r1").1.rules
      = [Sample.rNoTag, Sample.rIp] ∧
    (RemoveRule (Sample.router .AsIs [Sample.rNoTag, Sample.rDomain, Sample.rIp])
      "r1").1.rules.length + 1 = 3 :=
  have h := RemoveRule_filters (Sample.router .AsIs [Sample.rNoTag, Sample.rDomain, Sample.rIp])
    "r1" (by decide)
  ⟨h.1, by rw [h.2.1]; decide, h.2.2.2.2.2 (by decide)⟩

end Remove

end XrayRouter

/-! ## Rule tags stay unique -/

namespace XrayRouter

section Unique

variable {Ctx Cond Bal Dns CondCfg BalCfg : Type}

/-- The rule built from an entry carries the rule tag of the entry. -/
theorem ruleOf_ruleTag (d : Deps Ctx Cond Dns CondCfg) (balancers : List (String × Bal))
    (c : RoutingRule CondCfg) (rr : Rule Cond Bal) (h : ruleOf d balancers c = some rr) :
    rr.RuleTag = c.RuleTag := by
  unfold ruleOf at h
  cases hc : d.BuildCondition c with
  | error msg => rw [hc] at h; simp at h
  | ok cond =>
    rw [hc] at h
    by_cases hl : c.GetBalancingTag.length > 0
    · simp only [hl, if_true, Option.map_eq_some'] at h
      obtain ⟨b, -, rfl⟩ := h
      rfl
    · simp only [hl, if_false, Option.some.injEq] at h
      subst h
      rfl

/-- Appending a rule whose tag `RuleExists` does not find keeps the tags unique. -/
theorem uniqueTags_append (r : Router Cond Bal Dns CondCfg BalCfg) (rr : Rule Cond Bal)
    (hu : UniqueTags r.rules) (hex : RuleExists r rr.RuleTag = false) :
    UniqueTags (r.rules ++ [rr]) := by
  unfold UniqueTags at hu ⊢
  rw [List.pairwise_append]
  refine ⟨hu, by simp, ?_⟩
  intro a ha b hb hab
  simp only [List.mem_singleton] at hb
  subst hb
  by_contra hne
  have : RuleExists r b.RuleTag = true :=
    (RuleExists_iff r b.RuleTag).2 ⟨by rw [← hab]; exact hne, a, ha, hab⟩
  rw [hex] at this
  simp at this

/-- The loop of `ReloadRules` keeps the tags unique, wherever it stops. -/
theorem reloadLoop_uniqueTags (d : Deps Ctx Cond Dns CondCfg) (cs : List (RoutingRule CondCfg)) :
    ∀ r : Router Cond Bal Dns CondCfg BalCfg, UniqueTags r.rules →
      UniqueTags (reloadLoop d r cs).1.rules := by
  induction cs with
  | nil => intro r hu; simpa [reloadLoop] using hu
  | cons c cs ih =>
    intro r hu
    by_cases hex : RuleExists r c.RuleTag = true
    · rw [reloadLoop_cons_dup d r c cs hex]; exact hu
    · have hex0 : RuleExists r c.RuleTag = false := by simpa using hex
      rcases Option.eq_none_or_eq_some (ruleOf d r.balancers c) with hb | ⟨rr, hb⟩
      · obtain ⟨e0, he0, -⟩ := reloadLoop_cons_none d r c cs hex0 hb
        rw [he0]; exact hu
      · rw [reloadLoop_cons_some d r c cs rr hex0 hb]
        apply ih
        exact uniqueTags_append r rr hu (by rw [ruleOf_ruleTag d r.balancers c rr hb]; exact hex0)

/-- The rule list after a reload is the one its loop leaves. -/
theorem ReloadRules_rules (d : Deps Ctx Cond Dns CondCfg) (r : Router Cond Bal Dns CondCfg BalCfg)
    (config : Config CondCfg BalCfg) :
    (ReloadRules d r config).1.rules = (reloadLoop d r config.Rule).1.rules := by
  unfold ReloadRules
  split
  · next r1 heq => simp [heq]
  · next r1 e heq => simp [heq]

/-- A reload keeps the tags unique, whether it succeeds or fails. -/
theorem ReloadRules_uniqueTags (d : Deps Ctx Cond Dns CondCfg)
    (r : Router Cond Bal Dns CondCfg BalCfg) (config : Config CondCfg BalCfg)
    (hu : UniqueTags r.rules) : UniqueTags (ReloadRules d r config).1.rules := by
  rw [ReloadRules_rules]
  exact reloadLoop_uniqueTags d config.Rule r hu

/-- The rule list after a removal is a sublist of the one before. -/
theorem RemoveRule_sublist (r : Router Cond Bal Dns CondCfg BalCfg) (tag : String) :
    (RemoveRule r tag).1.rules.Sublist r.rules := by
  unfold RemoveRule
  by_cases ht : tag = ""
  · simp [ht]
  · simp only [ne_eq, ht, not_false_eq_true, if_true]
    rw [removeLoop_eq_filter]
    simp

/-- A removal keeps the tags unique. -/
theorem RemoveRule_uniqueTags (r : Router Cond Bal Dns CondCfg BalCfg) (tag : String)
    (hu : UniqueTags r.rules) : UniqueTags (RemoveRule r tag).1.rules :=
  List.Pairwise.sublist (RemoveRule_sublist r tag) hu

/-- Claim C18: if no two active rules share a non-empty rule tag, the same holds
after `ReloadRules(config)`, whether it succeeds or returns an error part-way
through the batch and whatever tags the batch repeats, and after
`RemoveRule(tag)`. -/
theorem reload_remove_preserve_uniqueTags (d : Deps Ctx Cond Dns CondCfg)
    (r : Router Cond Bal Dns CondCfg BalCfg) (config : Config CondCfg BalCfg) (tag : String)
    (hu : UniqueTags r.rules) :
    UniqueTags (ReloadRules d r config).1.rules ∧ UniqueTags (RemoveRule r tag).1.rules :=
  ⟨ReloadRules_uniqueTags d r config hu, RemoveRule_uniqueTags r tag hu⟩

/-- A batch that repeats the tag `n1` is rejected at the repetition; the list it
leaves, with the first `n1` appended, has unique tags. -/
theorem reload_remove_preserve_uniqueTags_witness :
    (ReloadRules Sample.deps (Sample.router .AsIs [Sample.rDomain, Sample.rNoTag])
      (Sample.cfg [⟨"n1", .Tag "x", .ip "1.1.1.1"⟩, ⟨"", .Tag "x", .ip "1.1.1.3"⟩,
        ⟨"n1", .Tag "y", .ip "1.1.1.2"⟩])).2 = some (Err.duplicateRuleTag "n1") ∧
    (ReloadRules Sample.deps (Sample.router .AsIs [Sample.rDomain, Sample.rNoTag])
      (Sample.cfg [⟨"n1", .Tag "x", .ip "1.1.1.1"⟩, ⟨"", .Tag "x", .ip "1.1.1.3"⟩,
        ⟨"n1", .Tag "y", .ip "1.1.1.2"⟩])).1.rules.length = 4 ∧
    UniqueTags (ReloadRules Sample.deps (Sample.router .AsIs [Sample.rDomain, Sample.rNoTag])
      (Sample.cfg [⟨"n1", .Tag "x", .ip "1.1.1.1"⟩, ⟨"", .Tag "x", .ip "1.1.1.3"⟩,
        ⟨"n1", .Tag "y", .ip "1.1.1.2"⟩])).1.rules ∧
    UniqueTags (RemoveRule (Sample.router .AsIs [Sample.rDomain, Sample.rNoTag]) "r1").1.rules :=
  ⟨by decide, by decide,
    (reload_remove_preserve_uniqueTags Sample.deps
      (Sample.router .AsIs [Sample.rDomain, Sample.rNoTag])
      (Sample.cfg [⟨"n1", .Tag "x", .ip "1.1.1.1"⟩, ⟨"", .Tag "x", .ip "1.1.1.3"⟩,
        ⟨"n1", .Tag "y", .ip "1.1.1.2"⟩]) "r1" (by decide)).1,
    (reload_remove_preserve_uniqueTags Sample.deps
      (Sample.router .AsIs [Sample.rDomain, Sample.rNoTag])
      (Sample.cfg [⟨"n1", .Tag "x", .ip "1.1.1.1"⟩, ⟨"", .Tag "x", .ip "1.1.1.3"⟩,
        ⟨"n1", .Tag "y", .ip "1.1.1.2"⟩]) "r1" (by decide)).2⟩

end Unique

/-! ## Initialisation -/

section InitS

variable {Ctx Cond Bal Dns CondCfg BalCfg : Type}

/-- One turn of the rule loop of `Init` on an entry that does not build. -/
theorem initRuleLoop_cons_none (d : Deps Ctx Cond Dns CondCfg)
    (r : Router Cond Bal Dns CondCfg BalCfg) (c : RoutingRule CondCfg)
    (cs : List (RoutingRule CondCfg)) (hb : ruleOf d r.balancers c = none) :
    ∃ e, initRuleLoop d r (c :: cs) = (r, some e) ∧
      (c.GetBalancingTag ≠ "" → r.balancers.lookup c.GetBalancingTag = none →
        (∃ cond, d.BuildCondition c = .ok cond) → e = Err.balancerNotFound c.GetBalancingTag) := by
  unfold ruleOf at hb
  cases hc : d.BuildCondition c with
  | error msg => exact ⟨Err.buildCondition msg, by simp [initRuleLoop, hc], by simp⟩
  | ok cond =>
    rw [hc] at hb
    by_cases hl : c.GetBalancingTag.length > 0
    · simp only [hl, if_true, Option.map_eq_none'] at hb
      exact ⟨Err.balancerNotFound c.GetBalancingTag, by simp [initRuleLoop, hc, hl, hb],
        fun _ _ _ => rfl⟩
    · simp [hl] at hb

/-- One turn of the rule loop of `Init` on an entry that builds. -/
theorem initRuleLoop_cons_some (d : Deps Ctx Cond Dns CondCfg)
    (r : Router Cond Bal Dns CondCfg BalCfg) (c : RoutingRule CondCfg)
    (cs : List (RoutingRule CondCfg)) (rr : Rule Cond Bal)
    (hb : ruleOf d r.balancers c = some rr) :
    initRuleLoop d r (c :: cs) = initRuleLoop d { r with rules := r.rules ++ [rr] } cs := by
  unfold ruleOf at hb
  cases hc : d.BuildCondition c with
  | error msg => rw [hc] at hb; simp at hb
  | ok cond =>
    rw [hc] at hb
    by_cases hl : c.GetBalancingTag.length > 0
    · simp only [hl, if_true, Option.map_eq_some'] at hb
      obtain ⟨b, hlook, rfl⟩ := hb
      simp [initRuleLoop, hc, hl, hlook]
    · simp only [hl, if_false, Option.some.injEq] at hb
      subst hb
      simp [initRuleLoop, hc, hl]

/-- The state the rule loop of `Init` leaves: the rules built from the first `k`
entries appended, `k` being the whole list when the loop ran through and the
index of the entry that does not build otherwise. -/
theorem initRuleLoop_spec (d : Deps Ctx Cond Dns CondCfg) (cs : List (RoutingRule CondCfg)) :
    ∀ r : Router Cond Bal Dns CondCfg BalCfg, ∃ k built,
      k ≤ cs.length ∧
      List.Forall₂ (fun c rr => ruleOf d r.balancers c = some rr) (cs.take k) built ∧
      (initRuleLoop d r cs).1 = { r with rules := r.rules ++ built } ∧
      ((initRuleLoop d r cs).2 = none → k = cs.length) ∧
      (∀ e, (initRuleLoop d r cs).2 = some e → ∃ c, cs[k]? = some c ∧
        ruleOf d r.balancers c = none) := by
  induction cs with
  | nil =>
    intro r
    exact ⟨0, [], by simp, by simp, by simp [initRuleLoop], by simp, by simp [initRuleLoop]⟩
  | cons c cs ih =>
    intro r
    rcases Option.eq_none_or_eq_some (ruleOf d r.balancers c) with hb | ⟨rr, hb⟩
    · obtain ⟨e0, he0, -⟩ := initRuleLoop_cons_none d r c cs hb
      refine ⟨0, [], by simp, by simp, by simp [he0], by simp [he0], ?_⟩
      intro e _
      exact ⟨c, by simp, hb⟩
    · rw [initRuleLoop_cons_some d r c cs rr hb]
      obtain ⟨k, built, hk, hf, hst, hn, herr⟩ := ih { r with rules := r.rules ++ [rr] }
      refine ⟨k + 1, rr :: built, by simpa using hk, ?_, ?_, ?_, ?_⟩
      · simpa using ⟨hb, hf⟩
      · simpa using hst
      · intro h; simpa using hn h
      · intro e he
        obtain ⟨c1, hc1, hcase⟩ := herr e he
        exact ⟨c1, by simpa using hc1, hcase⟩

/-- The two ways `Init` ends: the balancer loop fails and the rules are not touched,
or the balancer map is complete and the rule list is what the rule loop built
from an empty list. -/
theorem Init_cases (d : Deps Ctx Cond Dns CondCfg) (bd : BalDeps Bal BalCfg)
    (r : Router Cond Bal Dns CondCfg BalCfg) (config : Config CondCfg BalCfg) (dns : Dns) :
    ((balancerLoop bd [] config.BalancingRule).2 ≠ none ∧
      (Init d bd r config dns).2 = (balancerLoop bd [] config.BalancingRule).2 ∧
      (Init d bd r config dns).1.rules = r.rules) ∨
    ((balancerLoop bd [] config.BalancingRule).2 = none ∧
      (Init d bd r config dns).1.balancers = (balancerLoop bd [] config.BalancingRule).1 ∧
      (Init d bd r config dns).1.domainStrategy = config.DomainStrategy ∧
      (Init d bd r config dns).1.dns = dns ∧
      ∃ k built, k ≤ config.Rule.length ∧
        List.Forall₂ (fun c rr => ruleOf d (balancerLoop bd [] config.BalancingRule).1 c = some rr)
          (config.Rule.take k) built ∧
        (Init d bd r config dns).1.rules = built ∧
        ((Init d bd r config dns).2 = none → k = config.Rule.length) ∧
        ((Init d bd r config dns).2 ≠ none → ∃ c, config.Rule[k]? = some c ∧
          ruleOf d (balancerLoop bd [] config.BalancingRule).1 c = none)) := by
  unfold Init
  simp only
  split
  · next m e heq => left; simp [heq]
  · next m heq =>
    right
    obtain ⟨k, built, hk, hf, hst, hn, herr⟩ := initRuleLoop_spec d config.Rule
      ({ domainStrategy := config.DomainStrategy, rules := [], balancers := m, dns := dns,
          config := r.config } : Router Cond Bal Dns CondCfg BalCfg)
    simp only [heq, true_and]
    split
    · next r2 e heq2 =>
      rw [heq2] at hst hn herr
      simp only at hst hn herr
      subst hst
      refine ⟨rfl, rfl, rfl, k, built, hk, hf, by simp, by simp, fun _ => herr e rfl⟩
    · next r2 heq2 =>
      rw [heq2] at hst hn
      simp only at hst hn
      subst hst
      exact ⟨rfl, rfl, rfl, k, built, hk, hf, by simp, fun _ => hn trivial, by simp⟩

/-- Rules built entry by entry carry the rule tags of the entries, in order. -/
theorem built_ruleTags (d : Deps Ctx Cond Dns CondCfg) (m : List (String × Bal))
    (cs : List (RoutingRule CondCfg)) (built : List (Rule Cond Bal))
    (hf : List.Forall₂ (fun c rr => ruleOf d m c = some rr) cs built) :
    built.map (fun q => q.RuleTag) = cs.map (fun c => c.RuleTag) := by
  induction hf with
  | nil => rfl
  | cons h _ ih => simp [ih, ruleOf_ruleTag d m _ _ h]

/-- Rules built from entries whose non-empty tags are distinct have unique tags. -/
theorem built_uniqueTags (d : Deps Ctx Cond Dns CondCfg) (m : List (String × Bal))
    (cs : List (RoutingRule CondCfg)) (built : List (Rule Cond Bal))
    (hf : List.Forall₂ (fun c rr => ruleOf d m c = some rr) cs built)
    (hu : UniqueCfgTags cs) : UniqueTags built := by
  have h1 : (built.map (fun q => q.RuleTag)).Pairwise (fun a b => a = b → a = "") := by
    rw [built_ruleTags d m cs built hf, List.pairwise_map]
    exact hu
  rw [List.pairwise_map] at h1
  exact h1

/-- A successful `Init` of a configuration whose non-empty rule tags are distinct
leaves a rule list with unique tags. -/
theorem Init_uniqueTags (d : Deps Ctx Cond Dns CondCfg) (bd : BalDeps Bal BalCfg)
    (r : Router Cond Bal Dns CondCfg BalCfg) (config : Config CondCfg BalCfg) (dns : Dns)
    (hok : (Init d bd r config dns).2 = none) (hu : UniqueCfgTags config.Rule) :
    UniqueTags (Init d bd r config dns).1.rules := by
  rcases Init_cases d bd r config dns with ⟨hne, heq, -⟩ | ⟨-, -, -, -, k, built, -, hf, hr, hk, -⟩
  · rw [heq] at hok
    exact absurd hok hne
  · have hk := hk hok
    subst hk
    rw [List.take_length] at hf
    rw [hr]
    exact built_uniqueTags d _ config.Rule built hf hu

/-- Any sequence of reloads and removals keeps the tags unique. -/
theorem run_uniqueTags (d : Deps Ctx Cond Dns CondCfg) (ops : List (Op CondCfg BalCfg)) :
    ∀ r : Router Cond Bal Dns CondCfg BalCfg, UniqueTags r.rules →
      UniqueTags (run d r ops).rules := by
  induction ops with
  | nil => intro r hu; exact hu
  | cons op ops ih =>
    intro r hu
    simp only [run, List.foldl_cons]
    apply ih
    cases op with
    | reload config => exact ReloadRules_uniqueTags d r config hu
    | remove tag => exact RemoveRule_uniqueTags r tag hu

/-- Claim C11, as stated, fails on untagged rules: `Init` of a configuration with
two entries without rule tag succeeds and both active rules carry the same,
empty, rule tag; and a reload accepts an untagged entry next to an untagged
active rule. -/
theorem untagged_rules_share_ruleTag :
    ((Init Sample.deps Sample.bdeps Sample.router0
        (Sample.cfgB .AsIs [⟨"", .Tag "a", .domain "x"⟩, ⟨"", .Tag "b", .domain "y"⟩] [])
        Sample.dns).2 = none ∧
      ¬ ((Init Sample.deps Sample.bdeps Sample.router0
        (Sample.cfgB .AsIs [⟨"", .Tag "a", .domain "x"⟩, ⟨"", .Tag "b", .domain "y"⟩] [])
        Sample.dns).1.rules.map (fun q => q.RuleTag)).Nodup) ∧
    ((ReloadRules Sample.deps (Sample.router .AsIs [Sample.rNoTag])
        (Sample.cfg [⟨"", .Tag "x", .ip "1.1.1.1"⟩])).2 = none ∧
      ¬ ((ReloadRules Sample.deps (Sample.router .AsIs [Sample.rNoTag])
        (Sample.cfg [⟨"", .Tag "x", .ip "1.1.1.1"⟩])).1.rules.map (fun q => q.RuleTag)).Nodup) := by
  decide

/-- A batch that repeats a non-empty rule tag does not run through the loop of
`ReloadRules`: the repetition meets the rule appended for the first occurrence. -/
theorem reloadLoop_repeated_tag (d : Deps Ctx Cond Dns CondCfg)
    (cs : List (RoutingRule CondCfg)) :
    ∀ (r : Router Cond Bal Dns CondCfg BalCfg) (i j : Nat) (ci cj : RoutingRule CondCfg),
      i < j → cs[i]? = some ci → cs[j]? = some cj → ci.RuleTag = cj.RuleTag →
      ci.RuleTag ≠ "" → (reloadLoop d r cs).2 ≠ none := by
  induction cs with
  | nil => intro r i j ci cj _ hi; simp at hi
  | cons c cs ih =>
    intro r i j ci cj hij hi hj htag hne
    by_cases hex : RuleExists r c.RuleTag = true
    · rw [reloadLoop_cons_dup d r c cs hex]; simp
    · have hex0 : RuleExists r c.RuleTag = false := by simpa using hex
      rcases Option.eq_none_or_eq_some (ruleOf d r.balancers c) with hb | ⟨rr, hb⟩
      · obtain ⟨e0, he0, -⟩ := reloadLoop_cons_none d r c cs hex0 hb
        rw [he0]; simp
      · rw [reloadLoop_cons_some d r c cs rr hex0 hb]
        cases j with
        | zero => omega
        | succ j =>
          simp only [List.getElem?_cons_succ] at hj
          cases i with
          | zero =>
            simp only [List.getElem?_cons_zero, Option.some.injEq] at hi
            subst hi
            exact (reloadLoop_duplicate d cs { r with rules := r.rules ++ [rr] } j cj hj
              (by rw [← htag]; exact hne)
              ⟨rr, by simp, by rw [ruleOf_ruleTag d r.balancers c rr hb, htag]⟩).1
          | succ i =>
            simp only [List.getElem?_cons_succ] at hi
            exact ih _ i j ci cj (by omega) hi hj htag hne

/-- Claim C11, amended: from a state in which no two active rules share a non-empty
rule tag, every sequence of `ReloadRules` and `RemoveRule` calls, successful or
failing, leads to such a state; the state after a successful `Init` of a
configuration whose non-empty rule tags are pairwise distinct is one; and
`ReloadRules` rejects a configuration that repeats a non-empty rule tag. -/
theorem uniqueTags_reachable (d : Deps Ctx Cond Dns CondCfg) (bd : BalDeps Bal BalCfg)
    (r0 : Router Cond Bal Dns CondCfg BalCfg) (config : Config CondCfg BalCfg) (dns : Dns)
    (ops : List (Op CondCfg BalCfg)) :
    (∀ r : Router Cond Bal Dns CondCfg BalCfg, UniqueTags r.rules →
      UniqueTags (run d r ops).rules) ∧
    ((Init d bd r0 config dns).2 = none → UniqueCfgTags config.Rule →
      UniqueTags (Init d bd r0 config dns).1.rules ∧
      UniqueTags (run d (Init d bd r0 config dns).1 ops).rules) ∧
    (∀ (r : Router Cond Bal Dns CondCfg BalCfg) (i j : Nat) (ci cj : RoutingRule CondCfg),
      i < j → config.Rule[i]? = some ci → config.Rule[j]? = some cj →
      ci.RuleTag = cj.RuleTag → ci.RuleTag ≠ "" → (ReloadRules d r config).2 ≠ none) :=
  ⟨run_uniqueTags d ops, fun hok hu =>
    ⟨Init_uniqueTags d bd r0 config dns hok hu,
      run_uniqueTags d ops _ (Init_uniqueTags d bd r0 config dns hok hu)⟩,
    fun r i j ci cj hij hi hj htag hne => by
      rw [ReloadRules_snd]
      exact reloadLoop_repeated_tag d config.Rule r i j ci cj hij hi hj htag hne⟩

/-- After `Init` with the tags `r1`, `r2` and an untagged rule, a rejected reload
repeating `r2`, a removal of `r1` and an accepted reload of `r1`, the tags are
unique. -/
theorem uniqueTags_reachable_witness :
    UniqueTags (run Sample.deps
      (Init Sample.deps Sample.bdeps Sample.router0
        (Sample.cfgB .AsIs [⟨"r1", .Tag "a", .domain "x"⟩, ⟨"r2", .BalancingTag "b1", .domain "y"⟩,
          ⟨"", .Tag "c", .domain "z"⟩] ["b1"]) Sample.dns).1
      [.reload (Sample.cfgB .AsIs [⟨"n1", .Tag "a", .domain "u"⟩, ⟨"r2", .Tag "a", .domain "v"⟩] []),
        .remove "r1", .remove "",
        .reload (Sample.cfgB .AsIs [⟨"r1", .Tag "a", .domain "w"⟩] [])]).rules ∧
    (run Sample.deps
      (Init Sample.deps Sample.bdeps Sample.router0
        (Sample.cfgB .AsIs [⟨"r1", .Tag "a", .domain "x"⟩, ⟨"r2", .BalancingTag "b1", .domain "y"⟩,
          ⟨"", .Tag "c", .domain "z"⟩] ["b1"]) Sample.dns).1
      [.reload (Sample.cfgB .AsIs [⟨"n1", .Tag "a", .domain "u"⟩, ⟨"r2", .Tag "a", .domain "v"⟩] []),
        .remove "r1", .remove "",
        .reload (Sample.cfgB .AsIs [⟨"r1", .Tag "a", .domain "w"⟩] [])]).rules.map
      (fun q => q.RuleTag) = ["r2", "", "n1", "r1"] :=
  ⟨((uniqueTags_reachable Sample.deps Sample.bdeps Sample.router0
      (Sample.cfgB .AsIs [⟨"r1", .Tag "a", .domain "x"⟩, ⟨"r2", .BalancingTag "b1", .domain "y"⟩,
        ⟨"", .Tag "c", .domain "z"⟩] ["b1"]) Sample.dns
      [.reload (Sample.cfgB .AsIs [⟨"n1", .Tag "a", .domain "u"⟩, ⟨"r2", .Tag "a", .domain "v"⟩] []),
        .remove "r1", .remove "",
        .reload (Sample.cfgB .AsIs [⟨"r1", .Tag "a", .domain "w"⟩] [])]).2.1
      (by decide) (by decide)).2, by decide⟩

/-- The rule loop of `Init` has no duplicate test: a configuration repeating the tag
`r1` is accepted by `Init` with both rules active, while `ReloadRules` on a
router without rules rejects the same batch. -/
theorem Init_accepts_repeated_tag :
    (Init Sample.deps Sample.bdeps Sample.router0
      (Sample.cfgB .AsIs [⟨"r1", .Tag "a", .domain "x"⟩, ⟨"r1", .Tag "b", .domain "y"⟩] [])
      Sample.dns).2 = none ∧
    (Init Sample.deps Sample.bdeps Sample.router0
      (Sample.cfgB .AsIs [⟨"r1", .Tag "a", .domain "x"⟩, ⟨"r1", .Tag "b", .domain "y"⟩] [])
      Sample.dns).1.rules.map (fun q => q.RuleTag) = ["r1", "r1"] ∧
    (ReloadRules Sample.deps Sample.router0
      (Sample.cfgB .AsIs [⟨"r1", .Tag "a", .domain "x"⟩, ⟨"r1", .Tag "b", .domain "y"⟩] [])).2
      = some (Err.duplicateRuleTag "r1") := by
  decide

end InitS

end XrayRouter

/-! ## The public pick, its cost, and what mutations leave alone -/

namespace XrayRouter

section Public

variable {Ctx Cond Bal Dns CondCfg BalCfg : Type}

/-- A scan makes at most one `Apply` call per rule. -/
theorem applyLoop_count_le (d : Deps Ctx Cond Dns CondCfg) (ctx : Ctx)
    (rules : List (Rule Cond Bal)) :
    applyCount (applyLoop d ctx rules).2 ≤ rules.length := by
  obtain ⟨k, hk, ht, -⟩ := applyLoop_snd d ctx rules
  rw [ht, applyCount_scan]
  simp

/-- The `Apply` calls of a pick: one scan, or two when it retries. -/
theorem pick_applyCount_le (d : Deps Ctx Cond Dns CondCfg)
    (r : Router Cond Bal Dns CondCfg BalCfg) (ctx : Ctx) :
    applyCount (pickRouteInternal d r ctx).trace ≤
      (if retries d r ctx then 2 * r.rules.length else r.rules.length) := by
  unfold pickRouteInternal retries firstCtx
  simp only
  have ht0 : applyCount (if (decide (r.domainStrategy = .IpOnDemand) && !d.GetSkipDNSResolve ctx)
      = true then [Event.attachDNS ctx] else ([] : List (Event Ctx Cond Bal))) = 0 := by
    split <;> rfl
  generalize (if (decide (r.domainStrategy = .IpOnDemand) && !d.GetSkipDNSResolve ctx) = true
    then d.ContextWithDNSClient ctx r.dns else ctx) = ctx1
  generalize (if (decide (r.domainStrategy = .IpOnDemand) && !d.GetSkipDNSResolve ctx) = true
    then [Event.attachDNS ctx] else ([] : List (Event Ctx Cond Bal))) = t0 at ht0
  generalize (decide (r.domainStrategy ≠ .IpIfNonMatch) || (d.GetTargetDomain ctx1).length == 0
    || d.GetSkipDNSResolve ctx) = b
  have h1 := applyLoop_count_le d ctx1 r.rules
  have h2 := applyLoop_count_le d (d.ContextWithDNSClient ctx1 r.dns) r.rules
  split
  · next R1 t1 heq =>
    rw [heq] at h1
    simp only at h1
    simp only [applyCount_append, ht0]
    cases b <;> simp <;> omega
  · next t1 heq =>
    rw [heq] at h1
    simp only at h1
    cases b
    · simp only [Bool.false_eq_true, if_false, Bool.not_false, if_true]
      split
      · next R2 t2 heq2 =>
        rw [heq2] at h2
        simp only at h2
        simp only [applyCount_append, applyCount, ht0]
        omega
      · next t2 heq2 =>
        rw [heq2] at h2
        simp only at h2
        simp only [applyCount_append, applyCount, ht0]
        omega
    · simp only [if_true, Bool.not_true, Bool.false_eq_true, if_false, applyCount_append, ht0]
      omega

/-- A pick returns no error exactly when it returns a rule. -/
theorem pick_err_none_iff (d : Deps Ctx Cond Dns CondCfg)
    (r : Router Cond Bal Dns CondCfg BalCfg) (ctx : Ctx) :
    (pickRouteInternal d r ctx).err = none ↔ (pickRouteInternal d r ctx).rule ≠ none := by
  obtain ⟨-, herr, -⟩ := pick_last_scan d r ctx
  rw [herr]
  cases (pickRouteInternal d r ctx).rule <;> simp

/-- A pick reads the strategy, the rules and the DNS client of the router only. -/
theorem pick_congr (d : Deps Ctx Cond Dns CondCfg)
    (r r1 : Router Cond Bal Dns CondCfg BalCfg) (ctx : Ctx)
    (h1 : r1.domainStrategy = r.domainStrategy) (h2 : r1.rules = r.rules) (h3 : r1.dns = r.dns) :
    pickRouteInternal d r1 ctx = pickRouteInternal d r ctx := by
  unfold pickRouteInternal
  rw [h1, h2, h3]

/-- Claim C13: a pick over `n` active rules makes at most `2 * n` calls to
`Rule.Apply`, and at most `n` when the strategy is not IpIfNonMatch, or the
target domain is empty, or the skip flag is set. -/
theorem pickRouteInternal_apply_bound (d : Deps Ctx Cond Dns CondCfg)
    (r : Router Cond Bal Dns CondCfg BalCfg) (ctx : Ctx) :
    applyCount (pickRouteInternal d r ctx).trace ≤ 2 * r.rules.length ∧
    ((r.domainStrategy ≠ .IpIfNonMatch ∨ d.GetTargetDomain ctx = "" ∨
        d.GetSkipDNSResolve ctx = true) →
      applyCount (pickRouteInternal d r ctx).trace ≤ r.rules.length) := by
  have h := pick_applyCount_le d r ctx
  constructor
  · split at h <;> omega
  · intro hc
    have hr : retries d r ctx = false := by
      rcases hc with hs | hd | hk
      · simp [retries, hs]
      · by_cases hs : r.domainStrategy = .IpIfNonMatch
        · have hctx : firstCtx d r ctx = ctx := by
            unfold firstCtx
            rw [if_neg]
            simp [hs]
          simp [retries, hctx, hd]
        · simp [retries, hs]
      · simp [retries, hk]
    rw [hr] at h
    simpa using h

/-- Under IpIfNonMatch a context without target domain is scanned once. -/
theorem pickRouteInternal_apply_bound_witness :
    applyCount (pickRouteInternal Sample.deps
      (Sample.router .IpIfNonMatch [Sample.rIp, Sample.rNoTag]) ⟨"", false, []⟩).trace ≤ 2 ∧
    applyCount (pickRouteInternal Sample.deps
      (Sample.router .IpIfNonMatch [Sample.rIp, Sample.rNoTag]) Sample.ctx).trace ≤ 2 * 2 :=
  ⟨(pickRouteInternal_apply_bound Sample.deps
      (Sample.router .IpIfNonMatch [Sample.rIp, Sample.rNoTag]) ⟨"", false, []⟩).2
      (Or.inr (Or.inl rfl)),
    (pickRouteInternal_apply_bound Sample.deps
      (Sample.router .IpIfNonMatch [Sample.rIp, Sample.rNoTag]) Sample.ctx).1⟩

/-- Claim C12: `PickRoute` never dereferences a nil rule; it returns a route only
when the pick selected an active rule that applies on the route's context and
whose `GetTag` succeeded, and the route's outbound tag is the tag `GetTag`
returned; when the pick selects nothing, in particular when no rule applies, it
returns `ErrNoClue`; when `GetTag` of the selected rule fails it returns that
error. -/
theorem PickRoute_never_invents (d : Deps Ctx Cond Dns CondCfg)
    (getTag : Rule Cond Bal → Except Err String)
    (r : Router Cond Bal Dns CondCfg BalCfg) (ctx : Ctx) :
    PickRoute d getTag r ctx ≠ none ∧
    (∀ route, PickRoute d getTag r ctx = some (.ok route) →
      ∃ R, (pickRouteInternal d r ctx).rule = some R ∧ R ∈ r.rules ∧
        R.Apply d route.Context = true ∧ getTag R = .ok route.GetOutboundTag ∧
        route.Context = (pickRouteInternal d r ctx).ctx) ∧
    ((pickRouteInternal d r ctx).rule = none →
      PickRoute d getTag r ctx = some (.error Err.ErrNoClue)) ∧
    ((∀ q ∈ r.rules, ∀ c, q.Apply d c = false) →
      PickRoute d getTag r ctx = some (.error Err.ErrNoClue)) ∧
    (∀ R e, (pickRouteInternal d r ctx).rule = some R → getTag R = .error e →
      PickRoute d getTag r ctx = some (.error e)) := by
  obtain ⟨hrule, herr, -⟩ := pick_last_scan d r ctx
  have hnone : (pickRouteInternal d r ctx).rule = none →
      PickRoute d getTag r ctx = some (.error Err.ErrNoClue) := by
    intro h
    rw [h] at herr
    simp only [Option.isNone_none, if_true] at herr
    simp [PickRoute, herr]
  have hsome : ∀ R, (pickRouteInternal d r ctx).rule = some R →
      PickRoute d getTag r ctx =
        (match getTag R with
          | .error err => some (.error err)
          | .ok tag => some (.ok ⟨(pickRouteInternal d r ctx).ctx, [], tag⟩)) := by
    intro R h
    rw [h] at herr
    simp only [Option.isNone_some, Bool.false_eq_true, if_false] at herr
    simp [PickRoute, herr, h]
  refine ⟨?_, ?_, hnone, ?_, ?_⟩
  · rcases Option.eq_none_or_eq_some (pickRouteInternal d r ctx).rule with h | ⟨R, h⟩
    · rw [hnone h]; simp
    · rw [hsome R h]
      cases getTag R <;> simp
  · intro route hroute
    rcases Option.eq_none_or_eq_some (pickRouteInternal d r ctx).rule with h | ⟨R, h⟩
    · rw [hnone h] at hroute
      simp at hroute
    · rw [hsome R h] at hroute
      cases hg : getTag R with
      | error e => rw [hg] at hroute; simp at hroute
      | ok tag =>
        rw [hg] at hroute
        simp only [Option.some.injEq, Except.ok.injEq] at hroute
        subst hroute
        rw [h] at hrule
        obtain ⟨i, hi, hR, -, -⟩ := applyLoop_some d _ r.rules R hrule.symm
        exact ⟨R, h, List.getElem?_mem hi, hR, hg, rfl⟩
  · intro hno
    apply hnone
    rw [pick_rule]
    have hf : ∀ c, r.rules.find? (fun q => q.Apply d c) = none := by
      intro c
      rw [List.find?_eq_none]
      intro q hq
      simpa using hno q hq c
    rw [hf, hf]
    simp
  · intro R e h hg
    rw [hsome R h, hg]

/-- The scenario of the specification, a balancing rule whose balancer is exhausted,
and a context no rule matches. -/
theorem PickRoute_never_invents_witness :
    PickRoute Sample.deps Sample.getTag (Sample.router .AsIs [Sample.rDomain]) Sample.ctx
      = some (.ok ⟨Sample.ctx, [], "direct"⟩) ∧
    PickRoute Sample.deps Sample.getTag
        (Sample.router .AsIs [⟨.domain "example.com", "", "r9", some "balancer-9"⟩]) Sample.ctx
      = some (.error (Err.pickOutbound "exhausted")) ∧
    PickRoute Sample.deps Sample.getTag (Sample.router .AsIs [Sample.rIp]) Sample.ctx
      = some (.error Err.ErrNoClue) :=
  ⟨rfl,
    (PickRoute_never_invents Sample.deps Sample.getTag
      (Sample.router .AsIs [⟨.domain "example.com", "", "r9", some "balancer-9"⟩])
      Sample.ctx).2.2.2.2 ⟨.domain "example.com", "", "r9", some "balancer-9"⟩
      (Err.pickOutbound "exhausted") (by decide) rfl,
    (PickRoute_never_invents Sample.deps Sample.getTag (Sample.router .AsIs [Sample.rIp])
      Sample.ctx).2.2.1 (by decide)⟩

/-- The loop of `ReloadRules` changes the rule list only. -/
theorem reloadLoop_frame (d : Deps Ctx Cond Dns CondCfg) (cs : List (RoutingRule CondCfg))
    (r : Router Cond Bal Dns CondCfg BalCfg) :
    (reloadLoop d r cs).1.domainStrategy = r.domainStrategy ∧
    (reloadLoop d r cs).1.balancers = r.balancers ∧
    (reloadLoop d r cs).1.dns = r.dns ∧
    (reloadLoop d r cs).1.config = r.config := by
  obtain ⟨k, built, -, -, hst, -, -⟩ := reloadLoop_spec d cs r
  rw [hst]
  exact ⟨rfl, rfl, rfl, rfl⟩

/-- The state after a reload, in terms of its loop. -/
theorem ReloadRules_fst (d : Deps Ctx Cond Dns CondCfg) (r : Router Cond Bal Dns CondCfg BalCfg)
    (config : Config CondCfg BalCfg) :
    (ReloadRules d r config).1 =
      { (reloadLoop d r config.Rule).1 with
        config := if (reloadLoop d r config.Rule).2 = none then some config
          else (reloadLoop d r config.Rule).1.config } := by
  unfold ReloadRules
  split
  · next r1 heq => simp [heq]
  · next r1 e heq => simp [heq]

/-- Claim C17: `ReloadRules` and `RemoveRule`, succeeding or failing, leave the
balancer table, the DNS client and the domain strategy as they were; a pick
reads only the strategy, the rules and the DNS client, never the stored
configuration; so after `Init(config0)` a successful `ReloadRules(config1)`
stores `config1` while picks go on under the strategy of `config0`. -/
theorem mutations_keep_routing_parameters (d : Deps Ctx Cond Dns CondCfg)
    (bd : BalDeps Bal BalCfg) (r r0 : Router Cond Bal Dns CondCfg BalCfg)
    (config config0 : Config CondCfg BalCfg) (dns : Dns) (tag : String) :
    ((ReloadRules d r config).1.balancers = r.balancers ∧
      (ReloadRules d r config).1.dns = r.dns ∧
      (ReloadRules d r config).1.domainStrategy = r.domainStrategy) ∧
    ((RemoveRule r tag).1.balancers = r.balancers ∧
      (RemoveRule r tag).1.dns = r.dns ∧
      (RemoveRule r tag).1.domainStrategy = r.domainStrategy ∧
      (RemoveRule r tag).1.config = r.config) ∧
    ((ReloadRules d r config).2 = none → (ReloadRules d r config).1.config = some config) ∧
    ((ReloadRules d r config).2 ≠ none → (ReloadRules d r config).1.config = r.config) ∧
    (∀ (c : Option (Config CondCfg BalCfg)) (m : List (String × Bal)) (ctx : Ctx),
      pickRouteInternal d { r with config := c, balancers := m } ctx
        = pickRouteInternal d r ctx) ∧
    (Init d bd r0 config0 dns).1.domainStrategy = config0.DomainStrategy ∧
    (ReloadRules d (Init d bd r0 config0 dns).1 config).1.domainStrategy
      = config0.DomainStrategy := by
  obtain ⟨f1, f2, f3, f4⟩ := reloadLoop_frame d config.Rule r
  have hinit : (Init d bd r0 config0 dns).1.domainStrategy = config0.DomainStrategy := by
    rcases Init_cases d bd r0 config0 dns with ⟨hne, -, -⟩ | ⟨-, -, hs, -⟩
    · unfold Init
      simp only
      split
      · rfl
      · next m heq => rw [heq] at hne; simp at hne
    · exact hs
  refine ⟨?_, ?_, ?_, ?_, ?_, hinit, ?_⟩
  · rw [ReloadRules_fst]
    exact ⟨f2, f3, f1⟩
  · unfold RemoveRule
    split <;> exact ⟨rfl, rfl, rfl, rfl⟩
  · intro h
    rw [ReloadRules_snd] at h
    rw [ReloadRules_fst]
    simp [h]
  · intro h
    rw [ReloadRules_snd] at h
    rw [ReloadRules_fst]
    simp [h, f4]
  · intro c m ctx
    exact pick_congr d r _ ctx rfl rfl rfl
  · rw [ReloadRules_fst]
    simp only
    rw [(reloadLoop_frame d config.Rule _).1, hinit]

/-- A router initialised under AsIs and reloaded with a configuration asking for
IpOnDemand stores that configuration and still picks without attaching the DNS
client. -/
theorem mutations_keep_routing_parameters_witness :
    (ReloadRules Sample.deps
      (Init Sample.deps Sample.bdeps Sample.router0
        (Sample.cfgB .AsIs [⟨"r2", .Tag "block", .ip "10.1.2.3"⟩] ["b1"]) Sample.dns).1
      (Sample.cfgB .IpOnDemand [⟨"n1", .Tag "x", .ip "1.1.1.1"⟩] [])).1.config
      = some (Sample.cfgB .IpOnDemand [⟨"n1", .Tag "x", .ip "1.1.1.1"⟩] []) ∧
    (ReloadRules Sample.deps
      (Init Sample.deps Sample.bdeps Sample.router0
        (Sample.cfgB .AsIs [⟨"r2", .Tag "block", .ip "10.1.2.3"⟩] ["b1"]) Sample.dns).1
      (Sample.cfgB .IpOnDemand [⟨"n1", .Tag "x", .ip "1.1.1.1"⟩] [])).1.domainStrategy
      = .AsIs ∧
    (pickRouteInternal Sample.deps (ReloadRules Sample.deps
      (Init Sample.deps Sample.bdeps Sample.router0
        (Sample.cfgB .AsIs [⟨"r2", .Tag "block", .ip "10.1.2.3"⟩] ["b1"]) Sample.dns).1
      (Sample.cfgB .IpOnDemand [⟨"n1", .Tag "x", .ip "1.1.1.1"⟩] [])).1 Sample.ctx).err
      = some Err.ErrNoClue :=
  ⟨(mutations_keep_routing_parameters Sample.deps Sample.bdeps
      (Init Sample.deps Sample.bdeps Sample.router0
        (Sample.cfgB .AsIs [⟨"r2", .Tag "block", .ip "10.1.2.3"⟩] ["b1"]) Sample.dns).1
      Sample.router0 (Sample.cfgB .IpOnDemand [⟨"n1", .Tag "x", .ip "1.1.1.1"⟩] [])
      (Sample.cfgB .AsIs [⟨"r2", .Tag "block", .ip "10.1.2.3"⟩] ["b1"]) Sample.dns "").2.2.1
      (by decide),
    (mutations_keep_routing_parameters Sample.deps Sample.bdeps Sample.router0 Sample.router0
      (Sample.cfgB .IpOnDemand [⟨"n1", .Tag "x", .ip "1.1.1.1"⟩] [])
      (Sample.cfgB .AsIs [⟨"r2", .Tag "block", .ip "10.1.2.3"⟩] ["b1"]) Sample.dns
      "").2.2.2.2.2.2,
    by decide⟩

end Public

end XrayRouter

/-! ## Balancer references -/

namespace XrayRouter

section Balancers

variable {Ctx Cond Bal Dns CondCfg BalCfg : Type}

/-- A string has positive length exactly when it is not empty. -/
theorem string_length_pos_iff (s : String) : s.length > 0 ↔ s ≠ "" := by
  cases s with
  | mk data =>
    cases data with
    | nil => simp [String.length]
    | cons c cs =>
      simp only [String.length, List.length_cons]
      constructor
      · intro _ h
        have := congrArg String.data h
        simp at this
      · intro _
        omega

/-- An entry naming a balancer that is not in the table does not build. -/
theorem ruleOf_dangling (d : Deps Ctx Cond Dns CondCfg) (m : List (String × Bal))
    (c : RoutingRule CondCfg) (hb : c.GetBalancingTag ≠ "")
    (hl : m.lookup c.GetBalancingTag = none) : ruleOf d m c = none := by
  have hlen : c.GetBalancingTag.length > 0 := (string_length_pos_iff _).2 hb
  unfold ruleOf
  cases d.BuildCondition c with
  | error msg => rfl
  | ok cond => simp [hlen, hl]

/-- The balancer field of a rule built from an entry: the table entry of the
balancing tag when the entry has one, nil otherwise. -/
theorem ruleOf_balancer (d : Deps Ctx Cond Dns CondCfg) (m : List (String × Bal))
    (c : RoutingRule CondCfg) (rr : Rule Cond Bal) (h : ruleOf d m c = some rr) :
    (c.GetBalancingTag ≠ "" →
      rr.Balancer.isSome = true ∧ rr.Balancer = m.lookup c.GetBalancingTag) ∧
    (c.GetBalancingTag = "" → rr.Balancer = none) := by
  unfold ruleOf at h
  cases hc : d.BuildCondition c with
  | error msg => rw [hc] at h; simp at h
  | ok cond =>
    rw [hc] at h
    by_cases hl : c.GetBalancingTag.length > 0
    · simp only [hl, if_true, Option.map_eq_some'] at h
      obtain ⟨b, hlook, rfl⟩ := h
      refine ⟨fun _ => ⟨rfl, hlook.symm⟩, fun he => ?_⟩
      exact absurd he ((string_length_pos_iff _).1 hl)
    · simp only [hl, if_false, Option.some.injEq] at h
      subst h
      refine ⟨fun hne => ?_, fun _ => rfl⟩
      exact absurd ((string_length_pos_iff _).2 hne) hl

/-- Related lists are related index by index. -/
theorem forall₂_getElem? {α β : Type} (R : α → β → Prop) (l1 : List α) (l2 : List β)
    (hf : List.Forall₂ R l1 l2) : ∀ (i : Nat) (a : α), l1[i]? = some a →
      ∃ b, l2[i]? = some b ∧ R a b := by
  induction hf with
  | nil => intro i a h; simp at h
  | cons h _ ih =>
    intro i a ha
    cases i with
    | zero =>
      simp only [List.getElem?_cons_zero, Option.some.injEq] at ha
      subst ha
      exact ⟨_, by simp, h⟩
    | succ i =>
      simp only [List.getElem?_cons_succ] at ha
      obtain ⟨b, hb, hr⟩ := ih i a ha
      exact ⟨b, by simpa using hb, hr⟩

/-- The loop of `ReloadRules` on a batch in two parts: the second part runs from the
state the first leaves, when the first ran through. -/
theorem reloadLoop_append (d : Deps Ctx Cond Dns CondCfg) (xs ys : List (RoutingRule CondCfg)) :
    ∀ r : Router Cond Bal Dns CondCfg BalCfg, (reloadLoop d r xs).2 = none →
      reloadLoop d r (xs ++ ys) = reloadLoop d (reloadLoop d r xs).1 ys := by
  induction xs with
  | nil => intro r _; simp [reloadLoop]
  | cons c xs ih =>
    intro r hok
    by_cases hex : RuleExists r c.RuleTag = true
    · rw [reloadLoop_cons_dup d r c xs hex] at hok
      simp at hok
    · have hex0 : RuleExists r c.RuleTag = false := by simpa using hex
      rcases Option.eq_none_or_eq_some (ruleOf d r.balancers c) with hb | ⟨rr, hb⟩
      · obtain ⟨e0, he0, -⟩ := reloadLoop_cons_none d r c xs hex0 hb
        rw [he0] at hok
        simp at hok
      · rw [reloadLoop_cons_some d r c xs rr hex0 hb] at hok ⊢
        rw [List.cons_append, reloadLoop_cons_some d r c (xs ++ ys) rr hex0 hb]
        exact ih _ hok

/-- One turn of the loop of `ReloadRules` on an entry that passes the duplicate
test, builds its condition and names a balancer that is not in the table. -/
theorem reloadLoop_cons_dangling (d : Deps Ctx Cond Dns CondCfg)
    (r : Router Cond Bal Dns CondCfg BalCfg) (c : RoutingRule CondCfg)
    (cs : List (RoutingRule CondCfg)) (cond : Cond)
    (hex : RuleExists r c.RuleTag = false) (hc : d.BuildCondition c = .ok cond)
    (hb : c.GetBalancingTag ≠ "") (hl : r.balancers.lookup c.GetBalancingTag = none) :
    reloadLoop d r (c :: cs) = (r, some (Err.balancerNotFound c.GetBalancingTag)) := by
  have hlen : c.GetBalancingTag.length > 0 := (string_length_pos_iff _).2 hb
  simp [reloadLoop, hex, hc, hlen, hl]

/-- A list is its first `i` entries, the entry at index `i`, and the rest. -/
theorem split_at_index {α : Type} (l : List α) (i : Nat) (a : α) (h : l[i]? = some a) :
    l = l.take i ++ a :: l.drop (i + 1) := by
  induction l generalizing i with
  | nil => simp at h
  | cons x l ih =>
    cases i with
    | zero =>
      simp only [List.getElem?_cons_zero, Option.some.injEq] at h
      subst h
      simp
    | succ i =>
      simp only [List.getElem?_cons_succ] at h
      simp only [List.take_succ_cons, List.drop_succ_cons, List.cons_append, List.cons.injEq,
        true_and]
      exact ih i h

/-- The error of `Init` is that of its rule loop once the balancer map is built. -/
theorem Init_snd (d : Deps Ctx Cond Dns CondCfg) (bd : BalDeps Bal BalCfg)
    (r : Router Cond Bal Dns CondCfg BalCfg) (config : Config CondCfg BalCfg) (dns : Dns)
    (hok : (balancerLoop bd [] config.BalancingRule).2 = none) :
    (Init d bd r config dns).2 =
      (initRuleLoop d
        ({ domainStrategy := config.DomainStrategy, rules := [],
           balancers := (balancerLoop bd [] config.BalancingRule).1, dns := dns,
           config := r.config } : Router Cond Bal Dns CondCfg BalCfg) config.Rule).2 := by
  unfold Init
  simp only
  split
  · next m e heq => rw [heq] at hok; simp at hok
  · next m heq =>
    simp only [heq]
    split
    · next r2 e heq2 => simp [heq2]
    · next r2 heq2 => simp [heq2]

/-- The rule loop of `Init` reaching an entry that names a balancer outside the
table, every entry before it building and its own condition building. -/
theorem initRuleLoop_dangling (d : Deps Ctx Cond Dns CondCfg) (cs : List (RoutingRule CondCfg)) :
    ∀ (r : Router Cond Bal Dns CondCfg BalCfg) (i : Nat) (c : RoutingRule CondCfg),
      cs[i]? = some c → c.GetBalancingTag ≠ "" → r.balancers.lookup c.GetBalancingTag = none →
      (∀ j, j < i → ∀ c1, cs[j]? = some c1 → (ruleOf d r.balancers c1).isSome = true) →
      (∃ cond, d.BuildCondition c = .ok cond) →
      (initRuleLoop d r cs).2 = some (Err.balancerNotFound c.GetBalancingTag) := by
  induction cs with
  | nil => intro r i c hc; simp at hc
  | cons c0 cs ih =>
    intro r i c hc hb hl hall hcond
    cases i with
    | zero =>
      simp only [List.getElem?_cons_zero, Option.some.injEq] at hc
      subst hc
      obtain ⟨e0, he0, hkind⟩ := initRuleLoop_cons_none d r c0 cs (ruleOf_dangling d _ c0 hb hl)
      rw [he0, hkind hb hl hcond]
    | succ i =>
      simp only [List.getElem?_cons_succ] at hc
      have h0 := hall 0 (by omega) c0 (by simp)
      rcases Option.eq_none_or_eq_some (ruleOf d r.balancers c0) with hn | ⟨rr, hs⟩
      · rw [hn] at h0; simp at h0
      · rw [initRuleLoop_cons_some d r c0 cs rr hs]
        exact ih _ i c hc hb hl
          (fun j hj c1 hc1 => hall (j + 1) (by omega) c1 (by simpa using hc1)) hcond

/-- Claim C14, amended: a configuration with an entry whose balancing tag is non-empty
and is not in the balancer table makes `ReloadRules` and `Init` return an error;
the error is `balancer not found` for that tag when the entry is the first one
to fail and passes the duplicate test (for `ReloadRules`) and builds its
condition.  Every rule either call makes active has its balancer field set to
the table entry of its balancing tag when it has one, and nil otherwise. -/
theorem dangling_balancer_rejected (d : Deps Ctx Cond Dns CondCfg) (bd : BalDeps Bal BalCfg)
    (r r0 : Router Cond Bal Dns CondCfg BalCfg) (config : Config CondCfg BalCfg) (dns : Dns)
    (i : Nat) (c : RoutingRule CondCfg) (hc : config.Rule[i]? = some c)
    (hb : c.GetBalancingTag ≠ "") :
    (r.balancers.lookup c.GetBalancingTag = none →
      (ReloadRules d r config).2 ≠ none ∧
      ((reloadLoop d r (config.Rule.take i)).2 = none →
        RuleExists (reloadLoop d r (config.Rule.take i)).1 c.RuleTag = false →
        (∃ cond, d.BuildCondition c = .ok cond) →
        (ReloadRules d r config).2 = some (Err.balancerNotFound c.GetBalancingTag))) ∧
    ((Init d bd r0 config dns).1.balancers.lookup c.GetBalancingTag = none →
      (Init d bd r0 config dns).2 ≠ none ∧
      ((balancerLoop bd [] config.BalancingRule).2 = none →
        (∀ j, j < i → ∀ c1, config.Rule[j]? = some c1 →
          (ruleOf d (Init d bd r0 config dns).1.balancers c1).isSome = true) →
        (∃ cond, d.BuildCondition c = .ok cond) →
        (Init d bd r0 config dns).2 = some (Err.balancerNotFound c.GetBalancingTag))) ∧
    (∃ k built, (ReloadRules d r config).1.rules = r.rules ++ built ∧
      List.Forall₂ (fun c rr =>
        (c.GetBalancingTag ≠ "" →
          rr.Balancer.isSome = true ∧ rr.Balancer = r.balancers.lookup c.GetBalancingTag) ∧
        (c.GetBalancingTag = "" → rr.Balancer = none)) (config.Rule.take k) built) ∧
    ((Init d bd r0 config dns).2 = none →
      List.Forall₂ (fun c rr =>
        (c.GetBalancingTag ≠ "" →
          rr.Balancer.isSome = true ∧
          rr.Balancer = (Init d bd r0 config dns).1.balancers.lookup c.GetBalancingTag) ∧
        (c.GetBalancingTag = "" → rr.Balancer = none)) config.Rule
        (Init d bd r0 config dns).1.rules) := by
  refine ⟨?_, ?_, ?_, ?_⟩
  · intro hl
    constructor
    · intro hok
      obtain ⟨built, hf, -⟩ := ReloadRules_ok_state d r config hok
      obtain ⟨rr, -, hrr⟩ := forall₂_getElem? _ _ _ hf i c hc
      rw [ruleOf_dangling d _ c hb hl] at hrr
      simp at hrr
    · intro hpre hex ⟨cond, hcond⟩
      have hsplit := split_at_index config.Rule i c hc
      have hrw : reloadLoop d r config.Rule =
          reloadLoop d r (config.Rule.take i ++ c :: config.Rule.drop (i + 1)) := by
        rw [← hsplit]
      rw [ReloadRules_snd, hrw, reloadLoop_append d _ _ r hpre,
        reloadLoop_cons_dangling d _ c _ cond hex hcond hb
          (by rw [(reloadLoop_frame d _ r).2.1]; exact hl)]
  · intro hl
    rcases Init_cases d bd r0 config dns with
      ⟨hne, heq, -⟩ | ⟨hbal, hm, -, -, k, built, -, hf, -, hk, -⟩
    · exact ⟨by rw [heq]; exact hne, fun h => absurd h hne⟩
    · constructor
      · intro hok
        have hk := hk hok
        subst hk
        rw [List.take_length] at hf
        obtain ⟨rr, -, hrr⟩ := forall₂_getElem? _ _ _ hf i c hc
        rw [← hm, ruleOf_dangling d _ c hb hl] at hrr
        simp at hrr
      · intro _ hall hcond
        rw [Init_snd d bd r0 config dns hbal]
        rw [hm] at hl hall
        exact initRuleLoop_dangling d config.Rule _ i c hc hb hl hall hcond
  · obtain ⟨k, built, -, hf, hst, -, -⟩ := reloadLoop_spec d config.Rule r
    refine ⟨k, built, by rw [ReloadRules_rules, hst], ?_⟩
    exact hf.imp (fun {c rr} h => ruleOf_balancer d r.balancers c rr h)
  · intro hok
    rcases Init_cases d bd r0 config dns with
      ⟨hne, heq, -⟩ | ⟨-, hm, -, -, k, built, -, hf, hr, hk, -⟩
    · rw [heq] at hok
      exact absurd hok hne
    · have hk := hk hok
      subst hk
      rw [List.take_length] at hf
      rw [hr, hm]
      exact hf.imp (fun {c rr} h => ruleOf_balancer d _ c rr h)

/-- Claim C14, as stated, fails on the kind of error: an entry naming the absent
balancer `b2` whose rule tag `r1` is active makes `ReloadRules` return the
duplicate-tag error, and an entry naming `b2` without matcher field makes `Init`
return the error of `BuildCondition`; neither is the dangling-balancer error. -/
theorem dangling_balancer_other_error :
    ((⟨"r1", .BalancingTag "b2", .ip "1.1.1.1"⟩ : RoutingRule Sample.Cond).GetBalancingTag ≠ "" ∧
      (Sample.routerB .AsIs [Sample.rDomain]).balancers.lookup "b2" = none ∧
      (ReloadRules Sample.deps (Sample.routerB .AsIs [Sample.rDomain])
        (Sample.cfgB .AsIs [⟨"r1", .BalancingTag "b2", .ip "1.1.1.1"⟩] [])).2
        = some (Err.duplicateRuleTag "r1")) ∧
    ((⟨"n2", .BalancingTag "b2", .empty⟩ : RoutingRule Sample.Cond).GetBalancingTag ≠ "" ∧
      (Init Sample.deps Sample.bdeps Sample.router0
        (Sample.cfgB .AsIs [⟨"n2", .BalancingTag "b2", .empty⟩] ["b1"])
        Sample.dns).1.balancers.lookup "b2" = none ∧
      (Init Sample.deps Sample.bdeps Sample.router0
        (Sample.cfgB .AsIs [⟨"n2", .BalancingTag "b2", .empty⟩] ["b1"]) Sample.dns).2
        = some (Err.buildCondition "this rule has no effective fields")) := by
  decide

/-- An entry naming the balancer `b2`, absent from the table, after an entry naming
`b1`: both calls return `balancer not found` for `b2`. -/
theorem dangling_balancer_rejected_witness :
    (ReloadRules Sample.deps (Sample.routerB .AsIs [Sample.rDomain])
      (Sample.cfgB .AsIs [⟨"n1", .BalancingTag "b1", .ip "1.1.1.1"⟩,
        ⟨"n2", .BalancingTag "b2", .ip "1.1.1.2"⟩] [])).2 = some (Err.balancerNotFound "b2") ∧
    (Init Sample.deps Sample.bdeps Sample.router0
      (Sample.cfgB .AsIs [⟨"n1", .BalancingTag "b1", .ip "1.1.1.1"⟩,
        ⟨"n2", .BalancingTag "b2", .ip "1.1.1.2"⟩] ["b1"]) Sample.dns).2
      = some (Err.balancerNotFound "b2") :=
  ⟨((dangling_balancer_rejected Sample.deps Sample.bdeps (Sample.routerB .AsIs [Sample.rDomain])
      Sample.router0
      (Sample.cfgB .AsIs [⟨"n1", .BalancingTag "b1", .ip "1.1.1.1"⟩,
        ⟨"n2", .BalancingTag "b2", .ip "1.1.1.2"⟩] []) Sample.dns
      1 ⟨"n2", .BalancingTag "b2", .ip "1.1.1.2"⟩ rfl (by decide)).1 (by decide)).2
      (by decide) (by decide) ⟨.ip "1.1.1.2", rfl⟩,
    ((dangling_balancer_rejected Sample.deps Sample.bdeps Sample.router0 Sample.router0
      (Sample.cfgB .AsIs [⟨"n1", .BalancingTag "b1", .ip "1.1.1.1"⟩,
        ⟨"n2", .BalancingTag "b2", .ip "1.1.1.2"⟩] ["b1"]) Sample.dns
      1 ⟨"n2", .BalancingTag "b2", .ip "1.1.1.2"⟩ rfl (by decide)).2.1 (by decide)).2
      (by decide)
      (by
        intro j hj c1 hc1
        have hj0 : j = 0 := by omega
        subst hj0
        simp only [Sample.cfgB, List.getElem?_cons_zero, Option.some.injEq] at hc1
        subst hc1
        decide)
      ⟨.ip "1.1.1.2", rfl⟩⟩

end Balancers

end XrayRouter

/-! ## The state a rejected reload leaves -/

namespace XrayRouter

section Rejected

variable {Ctx Cond Bal Dns CondCfg BalCfg : Type}

/-- One turn of the loop of `ReloadRules` on an entry that passes the duplicate test
and does not build: the state is returned as it is, with the error of
`BuildCondition`, or `balancer not found` when the condition builds. -/
theorem reloadLoop_cons_fail (d : Deps Ctx Cond Dns CondCfg)
    (r : Router Cond Bal Dns CondCfg BalCfg) (c : RoutingRule CondCfg)
    (cs : List (RoutingRule CondCfg)) (hex : RuleExists r c.RuleTag = false)
    (hb : ruleOf d r.balancers c = none) :
    ∃ e, reloadLoop d r (c :: cs) = (r, some e) ∧
      ((∃ msg, d.BuildCondition c = .error msg ∧ e = Err.buildCondition msg) ∨
        (∃ cond, d.BuildCondition c = .ok cond ∧ c.GetBalancingTag ≠ "" ∧
          r.balancers.lookup c.GetBalancingTag = none ∧
          e = Err.balancerNotFound c.GetBalancingTag)) := by
  unfold ruleOf at hb
  cases hc : d.BuildCondition c with
  | error msg =>
    exact ⟨Err.buildCondition msg, by simp [reloadLoop, hex, hc], Or.inl ⟨msg, rfl, rfl⟩⟩
  | ok cond =>
    rw [hc] at hb
    by_cases hl : c.GetBalancingTag.length > 0
    · simp only [hl, if_true, Option.map_eq_none'] at hb
      exact ⟨Err.balancerNotFound c.GetBalancingTag, by simp [reloadLoop, hex, hc, hl, hb],
        Or.inr ⟨cond, rfl, (string_length_pos_iff _).1 hl, hb, rfl⟩⟩
    · simp [hl] at hb

/-- A loop that returns an error stopped at the first entry that fails: every entry
before it passed the duplicate test on the list as grown so far and was built
and appended, and the entry itself either carries a tag that is then active or
passes the duplicate test and does not build. -/
theorem reloadLoop_first_failure (d : Deps Ctx Cond Dns CondCfg)
    (cs : List (RoutingRule CondCfg)) :
    ∀ (r : Router Cond Bal Dns CondCfg BalCfg) (e : Err), (reloadLoop d r cs).2 = some e →
      ∃ k built, k < cs.length ∧
        List.Forall₂ (fun c rr => ruleOf d r.balancers c = some rr) (cs.take k) built ∧
        (∀ j c, j < k → cs[j]? = some c →
          RuleExists { r with rules := r.rules ++ built.take j } c.RuleTag = false) ∧
        (reloadLoop d r cs).1 = { r with rules := r.rules ++ built } ∧
        ∃ c, cs[k]? = some c ∧
          ((RuleExists { r with rules := r.rules ++ built } c.RuleTag = true ∧
              e = Err.duplicateRuleTag c.RuleTag) ∨
            (RuleExists { r with rules := r.rules ++ built } c.RuleTag = false ∧
              ((∃ msg, d.BuildCondition c = .error msg ∧ e = Err.buildCondition msg) ∨
                (∃ cond, d.BuildCondition c = .ok cond ∧ c.GetBalancingTag ≠ "" ∧
                  r.balancers.lookup c.GetBalancingTag = none ∧
                  e = Err.balancerNotFound c.GetBalancingTag)))) := by
  induction cs with
  | nil => intro r e h; simp [reloadLoop] at h
  | cons c0 cs ih =>
    intro r e h
    by_cases hex : RuleExists r c0.RuleTag = true
    · rw [reloadLoop_cons_dup d r c0 cs hex] at h ⊢
      simp only [Option.some.injEq] at h
      refine ⟨0, [], by simp, by simp, ?_, by simp, c0, by simp, Or.inl ⟨?_, h.symm⟩⟩
      · intro j c hj; omega
      · simpa using hex
    · have hex0 : RuleExists r c0.RuleTag = false := by simpa using hex
      rcases Option.eq_none_or_eq_some (ruleOf d r.balancers c0) with hb | ⟨rr, hb⟩
      · obtain ⟨e0, he0, hkind⟩ := reloadLoop_cons_fail d r c0 cs hex0 hb
        rw [he0] at h ⊢
        simp only [Option.some.injEq] at h
        subst h
        refine ⟨0, [], by simp, by simp, ?_, by simp, c0, by simp, Or.inr ⟨?_, hkind⟩⟩
        · intro j c hj; omega
        · simpa using hex0
      · rw [reloadLoop_cons_some d r c0 cs rr hex0 hb] at h ⊢
        obtain ⟨k, built, hk, hf, hpass, hst, c, hc, hcase⟩ :=
          ih { r with rules := r.rules ++ [rr] } e h
        refine ⟨k + 1, rr :: built, by simpa using hk, by simpa using ⟨hb, hf⟩, ?_,
          by simpa using hst, c, by simpa using hc, by simpa using hcase⟩
        intro j c1 hj hc1
        cases j with
        | zero =>
          simp only [List.getElem?_cons_zero, Option.some.injEq] at hc1
          subst hc1
          simpa using hex0
        | succ j =>
          simp only [List.getElem?_cons_succ] at hc1
          simpa using hpass j c1 (by omega) hc1

/-- Claim C6, amended: when `ReloadRules(config)` returns an error, the stored
configuration and every field but the rule list are as before, and the active
list is the old one followed by the rules built from the entries that precede
the rejected entry.  The rejected entry is the first one that fails: each entry
before it passed the duplicate test on the list as grown so far and built,
while the rejected entry carries a tag that is active at that point (the error
is then the duplicate-tag error), or passes the duplicate test and fails in
`BuildCondition` or names a balancer that is not in the table (the error is
then that build error).  When the first entry is the rejected one the state is
unchanged. -/
theorem ReloadRules_error_state (d : Deps Ctx Cond Dns CondCfg)
    (r : Router Cond Bal Dns CondCfg BalCfg) (config : Config CondCfg BalCfg) (e : Err)
    (h : (ReloadRules d r config).2 = some e) :
    ∃ k built, k < config.Rule.length ∧
      List.Forall₂ (fun c rr => ruleOf d r.balancers c = some rr) (config.Rule.take k) built ∧
      (∀ j c, j < k → config.Rule[j]? = some c →
        RuleExists { r with rules := r.rules ++ built.take j } c.RuleTag = false) ∧
      (ReloadRules d r config).1 = { r with rules := r.rules ++ built } ∧
      (ReloadRules d r config).1.config = r.config ∧
      (∃ c, config.Rule[k]? = some c ∧
        ((RuleExists (ReloadRules d r config).1 c.RuleTag = true ∧
            e = Err.duplicateRuleTag c.RuleTag) ∨
          (RuleExists (ReloadRules d r config).1 c.RuleTag = false ∧
            ((∃ msg, d.BuildCondition c = .error msg ∧ e = Err.buildCondition msg) ∨
              (∃ cond, d.BuildCondition c = .ok cond ∧ c.GetBalancingTag ≠ "" ∧
                r.balancers.lookup c.GetBalancingTag = none ∧
                e = Err.balancerNotFound c.GetBalancingTag))))) ∧
      (k = 0 → (ReloadRules d r config).1 = r) := by
  obtain ⟨h1, h2⟩ := ReloadRules_err d r config e h
  obtain ⟨k, built, hk, hf, hpass, hst, c, hc, hcase⟩ :=
    reloadLoop_first_failure d config.Rule r e h1
  rw [h2, hst]
  refine ⟨k, built, hk, hf, hpass, rfl, rfl, ⟨c, hc, hcase⟩, ?_⟩
  intro hk0
  subst hk0
  simp only [List.take_zero, List.forall₂_nil_left_iff] at hf
  subst hf
  simp

/-- A batch that repeats `n1` before an entry that does not build, after the active
rule `r1`: the reload stops at the repetition with the duplicate-tag error and
the first `n1` active. -/
theorem ReloadRules_error_state_witness :
    ∃ k built, k < 3 ∧
      List.Forall₂ (fun c rr => ruleOf Sample.deps [("b1", "balancer-1")] c = some rr)
        (List.take k [(⟨"n1", .Tag "x", .ip "1.1.1.1"⟩ : RoutingRule Sample.Cond),
          ⟨"n1", .Tag "y", .ip "1.1.1.2"⟩, ⟨"n3", .Tag "z", .empty⟩]) built ∧
      (∀ j c, j < k →
        [(⟨"n1", .Tag "x", .ip "1.1.1.1"⟩ : RoutingRule Sample.Cond),
          ⟨"n1", .Tag "y", .ip "1.1.1.2"⟩, ⟨"n3", .Tag "z", .empty⟩][j]? = some c →
        RuleExists { Sample.router .AsIs [Sample.rDomain] with
          rules := [Sample.rDomain] ++ built.take j } c.RuleTag = false) ∧
      (ReloadRules Sample.deps (Sample.router .AsIs [Sample.rDomain])
        (Sample.cfg [⟨"n1", .Tag "x", .ip "1.1.1.1"⟩, ⟨"n1", .Tag "y", .ip "1.1.1.2"⟩,
          ⟨"n3", .Tag "z", .empty⟩])).1
        = { Sample.router .AsIs [Sample.rDomain] with rules := [Sample.rDomain] ++ built } ∧
      (ReloadRules Sample.deps (Sample.router .AsIs [Sample.rDomain])
        (Sample.cfg [⟨"n1", .Tag "x", .ip "1.1.1.1"⟩, ⟨"n1", .Tag "y", .ip "1.1.1.2"⟩,
          ⟨"n3", .Tag "z", .empty⟩])).1.config = none ∧
      (∃ c, [(⟨"n1", .Tag "x", .ip "1.1.1.1"⟩ : RoutingRule Sample.Cond),
          ⟨"n1", .Tag "y", .ip "1.1.1.2"⟩, ⟨"n3", .Tag "z", .empty⟩][k]? = some c ∧
        ((RuleExists (ReloadRules Sample.deps (Sample.router .AsIs [Sample.rDomain])
            (Sample.cfg [⟨"n1", .Tag "x", .ip "1.1.1.1"⟩, ⟨"n1", .Tag "y", .ip "1.1.1.2"⟩,
              ⟨"n3", .Tag "z", .empty⟩])).1 c.RuleTag = true ∧
            Err.duplicateRuleTag "n1" = Err.duplicateRuleTag c.RuleTag) ∨
          (RuleExists (ReloadRules Sample.deps (Sample.router .AsIs [Sample.rDomain])
            (Sample.cfg [⟨"n1", .Tag "x", .ip "1.1.1.1"⟩, ⟨"n1", .Tag "y", .ip "1.1.1.2"⟩,
              ⟨"n3", .Tag "z", .empty⟩])).1 c.RuleTag = false ∧
            ((∃ msg, Sample.deps.BuildCondition c = .error msg ∧
                Err.duplicateRuleTag "n1" = Err.buildCondition msg) ∨
              (∃ cond, Sample.deps.BuildCondition c = .ok cond ∧ c.GetBalancingTag ≠ "" ∧
                List.lookup c.GetBalancingTag [("b1", "balancer-1")] = none ∧
                Err.duplicateRuleTag "n1" = Err.balancerNotFound c.GetBalancingTag))))) ∧
      (k = 0 → (ReloadRules Sample.deps (Sample.router .AsIs [Sample.rDomain])
        (Sample.cfg [⟨"n1", .Tag "x", .ip "1.1.1.1"⟩, ⟨"n1", .Tag "y", .ip "1.1.1.2"⟩,
          ⟨"n3", .Tag "z", .empty⟩])).1 = Sample.router .AsIs [Sample.rDomain]) :=
  ReloadRules_error_state Sample.deps (Sample.router .AsIs [Sample.rDomain])
    (Sample.cfg [⟨"n1", .Tag "x", .ip "1.1.1.1"⟩, ⟨"n1", .Tag "y", .ip "1.1.1.2"⟩,
      ⟨"n3", .Tag "z", .empty⟩])
    (Err.duplicateRuleTag "n1") (by decide)

/-- On that batch the reload leaves `r1` and the first `n1` only, and an outcome with
both `n1` rules active is excluded: the second `n1` does not pass the duplicate
test on the list grown by the first. -/
theorem ReloadRules_stops_at_first_failure :
    (ReloadRules Sample.deps (Sample.router .AsIs [Sample.rDomain])
      (Sample.cfg [⟨"n1", .Tag "x", .ip "1.1.1.1"⟩, ⟨"n1", .Tag "y", .ip "1.1.1.2"⟩,
        ⟨"n3", .Tag "z", .empty⟩])).2 = some (Err.duplicateRuleTag "n1") ∧
    (ReloadRules Sample.deps (Sample.router .AsIs [Sample.rDomain])
      (Sample.cfg [⟨"n1", .Tag "x", .ip "1.1.1.1"⟩, ⟨"n1", .Tag "y", .ip "1.1.1.2"⟩,
        ⟨"n3", .Tag "z", .empty⟩])).1.rules
      = [Sample.rDomain, ⟨.ip "1.1.1.1", "x", "n1", none⟩] ∧
    RuleExists { Sample.router .AsIs [Sample.rDomain] with
      rules := [Sample.rDomain] ++
        List.take 1 [(⟨.ip "1.1.1.1", "x", "n1", none⟩ : Rule Sample.Cond String),
          ⟨.ip "1.1.1.2", "y", "n1", none⟩] } "n1" = true := by
  decide

end Rejected

end XrayRouter

/-! ## What a reader can see while a reload runs -/

namespace XrayRouter

section Snapshots

variable {Ctx Cond Bal Dns CondCfg BalCfg : Type}

/-- The values `r.rules` takes during the loop start with the list on entry and end
with the list the loop leaves. -/
theorem reloadSnapshots_ends (d : Deps Ctx Cond Dns CondCfg) (cs : List (RoutingRule CondCfg)) :
    ∀ r : Router Cond Bal Dns CondCfg BalCfg,
      (reloadSnapshots d r cs).head? = some r.rules ∧
      (reloadSnapshots d r cs).getLast? = some (reloadLoop d r cs).1.rules := by
  induction cs with
  | nil => intro r; simp [reloadSnapshots, reloadLoop]
  | cons c cs ih =>
    intro r
    by_cases hex : RuleExists r c.RuleTag = true
    · simp [reloadSnapshots, reloadLoop, hex]
    · have hex0 : RuleExists r c.RuleTag = false := by simpa using hex
      cases hc : d.BuildCondition c with
      | error msg => simp [reloadSnapshots, reloadLoop, hex0, hc]
      | ok cond =>
        by_cases hl : c.GetBalancingTag.length > 0
        · cases hb : r.balancers.lookup c.GetBalancingTag with
          | none => simp [reloadSnapshots, reloadLoop, hex0, hc, hl, hb]
          | some b =>
            obtain ⟨-, h2⟩ := ih { r with rules := r.rules ++
              [{ Condition := cond, Tag := c.GetTag, RuleTag := c.GetRuleTag, Balancer := some b }] }
            simp only [reloadSnapshots, reloadLoop, hex0, hc, hl, hb, Bool.false_eq_true,
              if_false, if_true, List.head?_cons, true_and]
            rw [List.getLast?_cons, h2]
            rfl
        · obtain ⟨-, h2⟩ := ih { r with rules := r.rules ++
            [{ Condition := cond, Tag := c.GetTag, RuleTag := c.GetRuleTag, Balancer := none }] }
          simp only [reloadSnapshots, reloadLoop, hex0, hc, hl, Bool.false_eq_true,
            if_false, List.head?_cons, true_and]
          rw [List.getLast?_cons, h2]
          rfl

/-- Claim C15 on the code: during a successful reload of two entries on a router
with one active rule, `r.rules` holds in turn the old list, the old list with
the first new rule only, and the complete new list; the second value is neither
the list before the reload nor the list after it. -/
theorem reload_exposes_half_built_list :
    reloadSnapshots Sample.deps (Sample.router .AsIs [Sample.rDomain])
        [⟨"n1", .Tag "x", .ip "1.1.1.1"⟩, ⟨"n2", .Tag "y", .ip "1.1.1.2"⟩]
      = [[Sample.rDomain],
         [Sample.rDomain, ⟨.ip "1.1.1.1", "x", "n1", none⟩],
         [Sample.rDomain, ⟨.ip "1.1.1.1", "x", "n1", none⟩, ⟨.ip "1.1.1.2", "y", "n2", none⟩]] ∧
    (ReloadRules Sample.deps (Sample.router .AsIs [Sample.rDomain])
      (Sample.cfg [⟨"n1", .Tag "x", .ip "1.1.1.1"⟩, ⟨"n2", .Tag "y", .ip "1.1.1.2"⟩])).2 = none ∧
    [Sample.rDomain, ⟨.ip "1.1.1.1", "x", "n1", none⟩]
      ≠ (Sample.router .AsIs [Sample.rDomain]).rules ∧
    [Sample.rDomain, ⟨.ip "1.1.1.1", "x", "n1", none⟩]
      ≠ (ReloadRules Sample.deps (Sample.router .AsIs [Sample.rDomain])
        (Sample.cfg [⟨"n1", .Tag "x", .ip "1.1.1.1"⟩,
          ⟨"n2", .Tag "y", .ip "1.1.1.2"⟩])).1.rules := by
  decide

end Snapshots

end XrayRouter

/-! ## Port ranges -/

namespace XrayNet

/-- Claim C16: the range with both bounds equal to `p` contains `p`; a range contains
every port between its bounds, both included; the range from 53 to 53 contains
53. -/
theorem PortRange_contains (p : Nat) (range : PortRange) :
    PortRange.Contains ⟨p, p⟩ p = true ∧
    (range.From ≤ p → p ≤ range.To → range.Contains p = true) ∧
    PortRange.Contains ⟨53, 53⟩ 53 = true := by
  refine ⟨by simp [PortRange.Contains], ?_, by decide⟩
  intro h1 h2
  simp [PortRange.Contains, h1, h2]

/-- The range of the registered ports contains 8080, and the range of the test
contains 53. -/
theorem PortRange_contains_witness :
    PortRange.Contains ⟨1024, 49151⟩ 8080 = true ∧ PortRange.Contains ⟨53, 53⟩ 53 = true :=
  ⟨(PortRange_contains 8080 ⟨1024, 49151⟩).2.1 (by decide) (by decide),
    (PortRange_contains 53 ⟨53, 53⟩).1⟩

end XrayNet

/-! ## WireGuard keys -/

namespace XrayConf

/-- Every entry of the digit table reads back as a digit, and is a decimal digit or
a lowercase letter. -/
theorem hexDigit_spec (n : Nat) (h : n < 16) :
    (fromHexChar (hexDigit n)).isSome = true ∧
      ((48 ≤ hexDigit n ∧ hexDigit n ≤ 57) ∨ (97 ≤ hexDigit n ∧ hexDigit n ≤ 102)) := by
  unfold hexDigit fromHexChar
  by_cases h10 : n < 10
  · have h1 : 48 ≤ 48 + n ∧ 48 + n ≤ 57 := by omega
    simp [h10, h1]
  · have h1 : ¬ (48 ≤ 87 + n ∧ 87 + n ≤ 57) := by omega
    have h2 : 97 ≤ 87 + n ∧ 87 + n ≤ 102 := by omega
    simp [h10, h1, h2]

/-- A string of two bytes and a rest is a hexadecimal encoding when the two bytes
are digits and the rest is one. -/
theorem isHex_cons_cons (p q : Nat) (rest : Bytes) :
    isHex (p :: q :: rest) =
      ((fromHexChar p).isSome && (fromHexChar q).isSome && isHex rest) := by
  have hlen : (rest.length + 1 + 1) % 2 = rest.length % 2 := by omega
  simp only [isHex, List.length_cons, List.all_cons, hlen]
  cases (fromHexChar p).isSome <;> cases (fromHexChar q).isSome <;> simp

/-- `hex.DecodeString` succeeds exactly on the strings of even length made of
digits. -/
theorem hexDecodeString_isSome (s : Bytes) : (hexDecodeString s).isSome = isHex s := by
  induction s using hexDecodeString.induct with
  | case1 => rfl
  | case2 c => simp [hexDecodeString, isHex]
  | case3 p q rest a b ha hb out hout ih =>
    rw [isHex_cons_cons, ← ih]
    simp [hexDecodeString, ha, hb, hout]
  | case4 p q rest a b ha hb hnone ih =>
    rw [isHex_cons_cons, ← ih]
    simp [hexDecodeString, ha, hb, hnone]
  | case5 p q rest hne =>
    rw [isHex_cons_cons]
    cases hp : fromHexChar p with
    | none => simp [hexDecodeString, hp]
    | some a =>
      cases hq : fromHexChar q with
      | none => simp [hexDecodeString, hp, hq]
      | some b => exact absurd hq (hne a b hp)

/-- `hex.EncodeToString` returns a hexadecimal encoding. -/
theorem hexEncodeToString_isHex (dat : Bytes) : isHex (hexEncodeToString dat) = true := by
  induction dat with
  | nil => rfl
  | cons v dat ih =>
    have h1 := (hexDigit_spec (v / 16 % 16) (Nat.mod_lt _ (by omega))).1
    have h2 := (hexDigit_spec (v % 16) (Nat.mod_lt _ (by omega))).1
    simp only [hexEncodeToString]
    rw [isHex_cons_cons, h1, h2, ih]
    rfl

/-- `hex.EncodeToString` writes decimal digits and lowercase letters only. -/
theorem hexEncodeToString_lower (dat : Bytes) :
    ∀ c ∈ hexEncodeToString dat, (48 ≤ c ∧ c ≤ 57) ∨ (97 ≤ c ∧ c ≤ 102) := by
  induction dat with
  | nil => intro c hc; simp [hexEncodeToString] at hc
  | cons v dat ih =>
    intro c hc
    simp only [hexEncodeToString, List.mem_cons] at hc
    rcases hc with rfl | rfl | hc
    · exact (hexDigit_spec (v / 16 % 16) (Nat.mod_lt _ (by omega))).2
    · exact (hexDigit_spec (v % 16) (Nat.mod_lt _ (by omega))).2
    · exact ih c hc

/-- A hexadecimal encoding has even length. -/
theorem isHex_even (s : Bytes) (h : isHex s = true) : s.length % 2 = 0 := by
  simp only [isHex, Bool.and_eq_true, beq_iff_eq] at h
  exact h.1

/-- The key parser returns a hexadecimal encoding unchanged. -/
theorem parse_hex (b64 : Base64) (s : Bytes) (h : isHex s = true) :
    parseWireGuardKey b64 s = some s := by
  unfold parseWireGuardKey
  rw [if_pos ⟨isHex_even s h, by rw [hexDecodeString_isSome]; exact h⟩]

/-- On any other string the key parser trims one `=`, decodes with the decoder the
presence of `+` or `/` selects, and encodes the bytes in hexadecimal. -/
theorem parse_not_hex (b64 : Base64) (s : Bytes) (h : isHex s = false) :
    parseWireGuardKey b64 s =
      ((if containsRune (trimSuffixEq s) 43 || containsRune (trimSuffixEq s) 47
        then b64.RawStdDecode (trimSuffixEq s)
        else b64.RawURLDecode (trimSuffixEq s)).map hexEncodeToString) := by
  unfold parseWireGuardKey
  rw [if_neg (by rw [hexDecodeString_isSome, h]; simp)]
  simp only
  cases (if containsRune (trimSuffixEq s) 43 || containsRune (trimSuffixEq s) 47
    then b64.RawStdDecode (trimSuffixEq s) else b64.RawURLDecode (trimSuffixEq s)) <;> rfl

/-- `strings.TrimSuffix(str, "=")` removes one trailing `=` when there is one, and
nothing otherwise. -/
theorem trimSuffixEq_spec (s : Bytes) :
    (s.getLast? = some 61 → s = trimSuffixEq s ++ [61]) ∧
    (s.getLast? ≠ some 61 → trimSuffixEq s = s) := by
  unfold trimSuffixEq
  constructor
  · intro h
    rw [if_pos h]
    exact (List.dropLast_append_getLast? 61 (by rw [h]; rfl)).symm
  · intro h
    rw [if_neg h]

/-- Trimming `=` does not change whether another byte occurs in the string. -/
theorem containsRune_trimSuffixEq (s : Bytes) (c : Nat) (hc : c ≠ 61) :
    containsRune (trimSuffixEq s) c = containsRune s c := by
  by_cases h : s.getLast? = some 61
  · have hs := (trimSuffixEq_spec s).1 h
    generalize trimSuffixEq s = t at hs
    subst hs
    simp [containsRune, List.elem_eq_mem, hc]
  · rw [(trimSuffixEq_spec s).2 h]

/-- Claim C19: when `parseWireGuardKey` succeeds, the string it returns is a valid
hexadecimal encoding of even length, and parsing that string again succeeds and
returns it unchanged. -/
theorem parseWireGuardKey_idempotent (b64 : Base64) (s out : Bytes)
    (h : parseWireGuardKey b64 s = some out) :
    isHex out = true ∧ out.length % 2 = 0 ∧
    (∀ c ∈ out, (fromHexChar c).isSome = true) ∧
    (hexDecodeString out).isSome = true ∧
    parseWireGuardKey b64 out = some out := by
  have hhex : isHex out = true := by
    cases hs : isHex s with
    | true =>
      rw [parse_hex b64 s hs] at h
      simp only [Option.some.injEq] at h
      rw [← h]; exact hs
    | false =>
      rw [parse_not_hex b64 s hs] at h
      simp only [Option.map_eq_some'] at h
      obtain ⟨dat, -, rfl⟩ := h
      exact hexEncodeToString_isHex dat
  refine ⟨hhex, isHex_even out hhex, ?_, by rw [hexDecodeString_isSome]; exact hhex,
    parse_hex b64 out hhex⟩
  simp only [isHex, Bool.and_eq_true, List.all_eq_true] at hhex
  exact hhex.2

/-- A padded base64 key parses to the hexadecimal form of its two bytes, which
parses to itself. -/
theorem parseWireGuardKey_idempotent_witness :
    parseWireGuardKey goBase64 (ascii "AP8=") = some (ascii "00ff") ∧
    isHex (ascii "00ff") = true ∧
    parseWireGuardKey goBase64 (ascii "00ff") = some (ascii "00ff") :=
  ⟨by decide,
    (parseWireGuardKey_idempotent goBase64 (ascii "AP8=") (ascii "00ff") (by decide)).1,
    (parseWireGuardKey_idempotent goBase64 (ascii "AP8=") (ascii "00ff") (by decide)).2.2.2.2⟩

/-- Claim C20: `parseWireGuardKey` returns a string of even length made of
hexadecimal digits unchanged; on any other string it removes one trailing `=`
if there is one, decodes the rest with the unpadded standard decoder when it
contains `+` or `/` (which the removal does not change) and with the unpadded
URL-safe decoder otherwise, and returns the lowercase hexadecimal encoding of
the bytes; it fails exactly when the string is not hexadecimal and that
decoding fails. -/
theorem parseWireGuardKey_spec (b64 : Base64) (s : Bytes) :
    (isHex s = true → parseWireGuardKey b64 s = some s) ∧
    (isHex s = false →
      parseWireGuardKey b64 s =
        ((if containsRune (trimSuffixEq s) 43 || containsRune (trimSuffixEq s) 47
          then b64.RawStdDecode (trimSuffixEq s)
          else b64.RawURLDecode (trimSuffixEq s)).map hexEncodeToString)) ∧
    ((s.getLast? = some 61 → s = trimSuffixEq s ++ [61]) ∧
      (s.getLast? ≠ some 61 → trimSuffixEq s = s)) ∧
    (containsRune (trimSuffixEq s) 43 = containsRune s 43 ∧
      containsRune (trimSuffixEq s) 47 = containsRune s 47) ∧
    (∀ dat, isHex (hexEncodeToString dat) = true ∧
      (hexEncodeToString dat).length = 2 * dat.length ∧
      ∀ c ∈ hexEncodeToString dat, (48 ≤ c ∧ c ≤ 57) ∨ (97 ≤ c ∧ c ≤ 102)) ∧
    (parseWireGuardKey b64 s = none ↔
      isHex s = false ∧
      (if containsRune (trimSuffixEq s) 43 || containsRune (trimSuffixEq s) 47
        then b64.RawStdDecode (trimSuffixEq s)
        else b64.RawURLDecode (trimSuffixEq s)) = none) := by
  refine ⟨parse_hex b64 s, parse_not_hex b64 s, trimSuffixEq_spec s,
    ⟨containsRune_trimSuffixEq s 43 (by decide), containsRune_trimSuffixEq s 47 (by decide)⟩,
    ?_, ?_⟩
  · intro dat
    refine ⟨hexEncodeToString_isHex dat, ?_, hexEncodeToString_lower dat⟩
    induction dat with
    | nil => rfl
    | cons v dat ih => simp only [hexEncodeToString, List.length_cons, ih]; omega
  · cases hs : isHex s with
    | true => simp [parse_hex b64 s hs]
    | false => simp [parse_not_hex b64 s hs]

/-- Hexadecimal input keeps its case; a key with `+` goes through the standard
decoder and the same key with `-` through the URL-safe one, to the same bytes; a
key with two trailing `=` is rejected. -/
theorem parseWireGuardKey_spec_witness :
    parseWireGuardKey goBase64 (ascii "00FF") = some (ascii "00FF") ∧
    parseWireGuardKey goBase64 (ascii "+v8=") = some (ascii "faff") ∧
    parseWireGuardKey goBase64 (ascii "-v8") = some (ascii "faff") ∧
    parseWireGuardKey goBase64 (ascii "+v8==") = none :=
  ⟨(parseWireGuardKey_spec goBase64 (ascii "00FF")).1 (by decide),
    by rw [(parseWireGuardKey_spec goBase64 (ascii "+v8=")).2.1 (by decide)]; decide,
    by rw [(parseWireGuardKey_spec goBase64 (ascii "-v8")).2.1 (by decide)]; decide,
    (parseWireGuardKey_spec goBase64 (ascii "+v8==")).2.2.2.2.2.2 ⟨by decide, by decide⟩⟩

end XrayConf
